import Mathlib

/-!
Verification development for the MCP agent orchestration core
(`mcp_agent/agent_core.py`), together with the pieces of
`mcp_agent/prompts.py` it uses.  The Python functions are embedded as
executable Lean definitions: JSON values become the inductive `JValue`,
Python runtime exceptions become the explicit error type `PyErr`, the
chat backend becomes an adversarial stream of replies, and the two
analysis tools become an abstract function parameter.
-/

set_option maxHeartbeats 1600000
set_option maxRecDepth 4096

namespace MCPAgent

/-- Python runtime errors that `agent_core.py` can produce.  `ValueError`
is the only kind the orchestration loop catches (`except ValueError`);
the others propagate to the caller. -/
inductive PyErr where
  | valueError (msg : String)
  | typeError (msg : String)
  | attributeError (msg : String)
  | keyError (msg : String)
  | indexError (msg : String)
  deriving DecidableEq, Repr


/-- JSON values as handled by Python's `json.loads`/`json.dumps`.
Python distinguishes `int` from `float` results of parsing, which
matters for `int(...)` coercions, so the embedding keeps both; floats
are modelled as rationals (the only float arithmetic the code performs
is `max`/`min` clamping, which is exact). -/
inductive JValue where
  | jnull
  | jbool (b : Bool)
  | jint (n : Int)
  | jfloat (q : Rat)
  | jstr (s : String)
  | jarr (items : List JValue)
  | jobj (fields : List (String × JValue))


/-- Python `dict.get k`: the value of the first (unique) binding of `k`.
Objects produced by `json.loads` bind each key once (duplicates in the
source text keep the last value), and the code only ever updates
existing keys or appends new ones, which preserves uniqueness. -/
def getField (fields : List (String × JValue)) (k : String) : Option JValue :=
  match fields with
  | [] => none
  | (k', v) :: rest => if k' = k then some v else getField rest k


/-- Python `d[k] = v` on an insertion-ordered dict: replace the first
binding of `k` in place, or append a new binding at the end. -/
def setField : List (String × JValue) → String → JValue → List (String × JValue)
  | [], k, v => [(k, v)]
  | (k', v') :: rest, k, v =>
    if k' = k then (k, v) :: rest else (k', v') :: setField rest k v


/-- Python truthiness of a JSON value (`if not obj`, `x or y`, ...). -/
def pyTruthy : JValue → Bool
  | .jnull => false
  | .jbool b => b
  | .jint n => n != 0
  | .jfloat q => q != 0
  | .jstr s => s != ""
  | .jarr l => !l.isEmpty
  | .jobj f => !f.isEmpty


/-- Python type name of a JSON value, as it appears in error messages. -/
def pyTypeName : JValue → String
  | .jnull => "NoneType"
  | .jbool _ => "bool"
  | .jint _ => "int"
  | .jfloat _ => "float"
  | .jstr _ => "str"
  | .jarr _ => "list"
  | .jobj _ => "dict"


/-- `clamp_int` from `agent_core.py`: `max(lo, min(hi, v))`. -/
def clamp_int (v lo hi : Int) : Int :=
  max lo (min hi v)


/-- `clamp_float` from `agent_core.py`: `max(lo, min(hi, v))` (floats
modelled as rationals). -/
def clamp_float (v lo hi : Rat) : Rat :=
  max lo (min hi v)


/-- ASCII decimal digit test (Python's `\d` also accepts other Unicode
decimal digits; inputs in this repository only use ASCII digits). -/
def isAsciiDigit (c : Char) : Bool :=
  '0' ≤ c && c ≤ '9'


/-- The whitespace characters Python's `str.strip()` removes (the ASCII
ones; Unicode spaces are not modelled). -/
def isStripChar (c : Char) : Bool :=
  c = ' ' || c = '\t' || c = '\n' || c = '\r' || c.toNat = 11 || c.toNat = 12


/-- Python `s.strip()`: drop leading and trailing whitespace. -/
def pyStrip (s : String) : String :=
  String.mk (((s.data.dropWhile isStripChar).reverse.dropWhile isStripChar).reverse)


/-- Digits to a natural number, most significant first. -/
def digitsToNat (ds : List Char) : Nat :=
  ds.foldl (fun acc c => acc * 10 + (c.toNat - '0'.toNat)) 0


/-- Truncation toward zero, the behaviour of Python `int()` on a float. -/
def ratTruncToInt (q : Rat) : Int :=
  if 0 ≤ q then q.floor else -((-q).floor)


/-- Python `int(v)` on a JSON value: ints pass through, bools become
0/1, floats truncate toward zero, strings are parsed as optionally
signed decimal integers after stripping whitespace (`ValueError` on
failure; numeric-literal underscores are not modelled), and `None`,
lists and dicts raise `TypeError`.  Only `ValueError` is caught by the
agent loop. -/
def pyInt : JValue → Except PyErr Int
  | .jint n => .ok n
  | .jbool b => .ok (if b then 1 else 0)
  | .jfloat q => .ok (ratTruncToInt q)
  | .jstr s =>
    let cs := (pyStrip s).data
    let (sign, ds) : Int × List Char :=
      match cs with
      | '-' :: rest => (-1, rest)
      | '+' :: rest => (1, rest)
      | rest => (1, rest)
    if ds ≠ [] && ds.all isAsciiDigit then
      .ok (sign * (digitsToNat ds : Int))
    else
      .error (.valueError ("invalid literal for int() with base 10: '" ++ s ++ "'"))
  | v => .error (.typeError
      ("int() argument must be a string, a bytes-like object or a real number, not '"
        ++ pyTypeName v ++ "'"))


/-- Parse the fractional digits of a decimal literal into a rational. -/
def fracToRat (ds : List Char) : Rat :=
  (digitsToNat ds : Rat) / ((10 : Rat) ^ ds.length)


/-- Python `float(v)` on a JSON value: numbers pass through, bools
become 0/1, strings are parsed as optionally signed decimal literals
with an optional fractional part after stripping whitespace
(`ValueError` on failure; exponents, `inf` and `nan` are not
modelled), and `None`, lists and dicts raise `TypeError`. -/
def pyFloat : JValue → Except PyErr Rat
  | .jint n => .ok (n : Rat)
  | .jfloat q => .ok q
  | .jbool b => .ok (if b then 1 else 0)
  | .jstr s =>
    let cs := (pyStrip s).data
    let (sign, body) : Rat × List Char :=
      match cs with
      | '-' :: rest => (-1, rest)
      | '+' :: rest => (1, rest)
      | rest => (1, rest)
    let intPart := body.takeWhile isAsciiDigit
    let rest := body.drop intPart.length
    match rest with
    | [] =>
      if intPart ≠ [] then .ok (sign * (digitsToNat intPart : Rat))
      else .error (.valueError ("could not convert string to float: '" ++ s ++ "'"))
    | '.' :: fracRest =>
      let fracPart := fracRest.takeWhile isAsciiDigit
      if (intPart ≠ [] || fracPart ≠ []) && fracRest.drop fracPart.length = [] then
        .ok (sign * ((digitsToNat intPart : Rat) + fracToRat fracPart))
      else .error (.valueError ("could not convert string to float: '" ++ s ++ "'"))
    | _ => .error (.valueError ("could not convert string to float: '" ++ s ++ "'"))
  | v => .error (.typeError
      ("float() argument must be a string or a real number, not '"
        ++ pyTypeName v ++ "'"))


/-- A CJK Unified Ideograph, the character class `[一-鿿]` of
`contains_cjk`. -/
def isCJKChar (c : Char) : Bool :=
  0x4e00 ≤ c.toNat && c.toNat ≤ 0x9fff


/-- `contains_cjk` from `agent_core.py`:
`bool(re.search(r"[一-鿿]", text))`, i.e. some character of the
text lies in the CJK Unified Ideographs range. -/
def contains_cjk (s : String) : Bool :=
  s.data.any isCJKChar


/-- The fixed replacement sentence of `sanitize_korean_only`. -/
def koreanFallbackSentence : String :=
  "한국어로만 출력해야 하나, 모델 출력에 비한국어 문구가 포함되어 일부 내용을 생략했습니다."


mutual

/-- `_walk` inside `sanitize_korean_only`: rebuild dicts and lists,
replacing every string value that contains a CJK character by the fixed
fallback sentence (`_fix_str`).  Dict keys are not visited. -/
def sanitizeWalk : JValue → JValue
  | .jobj fields => .jobj (sanitizeWalkFields fields)
  | .jarr items => .jarr (sanitizeWalkList items)
  | .jstr s => .jstr (if contains_cjk s then koreanFallbackSentence else s)
  | v => v

/-- `_walk` on the elements of a list. -/
def sanitizeWalkList : List JValue → List JValue
  | [] => []
  | x :: xs => sanitizeWalk x :: sanitizeWalkList xs

/-- `_walk` on the values of a dict. -/
def sanitizeWalkFields : List (String × JValue) → List (String × JValue)
  | [] => []
  | (k, v) :: rest => (k, sanitizeWalk v) :: sanitizeWalkFields rest

end

/-- `sanitize_korean_only` from `agent_core.py`. -/
def sanitize_korean_only (obj : JValue) : JValue :=
  sanitizeWalk obj


mutual

/-- All leaf string values of a JSON value (dict keys excluded), in
document order.  Used to state what exactly the sanitizer rewrites. -/
def leafStringValues : JValue → List String
  | .jstr s => [s]
  | .jarr items => leafStringValuesList items
  | .jobj fields => leafStringValuesFields fields
  | _ => []

/-- Leaf string values of the elements of a list. -/
def leafStringValuesList : List JValue → List String
  | [] => []
  | x :: xs => leafStringValues x ++ leafStringValuesList xs

/-- Leaf string values of the values of a dict. -/
def leafStringValuesFields : List (String × JValue) → List String
  | [] => []
  | (_, v) :: rest => leafStringValues v ++ leafStringValuesFields rest

end

mutual

/-- Erase every leaf string value (to `""`), keeping all structure,
keys, and non-string atoms.  `maskStringValues x = maskStringValues y`
says `x` and `y` agree everywhere except possibly on string values. -/
def maskStringValues : JValue → JValue
  | .jstr _ => .jstr ""
  | .jarr items => .jarr (maskStringValuesList items)
  | .jobj fields => .jobj (maskStringValuesFields fields)
  | v => v

/-- String erasure on the elements of a list. -/
def maskStringValuesList : List JValue → List JValue
  | [] => []
  | x :: xs => maskStringValues x :: maskStringValuesList xs

/-- String erasure on the values of a dict. -/
def maskStringValuesFields : List (String × JValue) → List (String × JValue)
  | [] => []
  | (k, v) :: rest => (k, maskStringValues v) :: maskStringValuesFields rest

end

mutual

/-- Whether any string occurring anywhere in the value — leaf string
values and dict keys alike — contains a CJK character.  This is
exactly `contains_cjk(json.dumps(obj, ensure_ascii=False))`, since with
`ensure_ascii=False` dumping writes every key and string value verbatim
(escaping only ASCII characters) and all other tokens it emits are
ASCII. -/
def jAnyCJKStr : JValue → Bool
  | .jstr s => contains_cjk s
  | .jarr items => jAnyCJKStrList items
  | .jobj fields => jAnyCJKStrFields fields
  | _ => false

/-- CJK search over the elements of a list. -/
def jAnyCJKStrList : List JValue → Bool
  | [] => false
  | x :: xs => jAnyCJKStr x || jAnyCJKStrList xs

/-- CJK search over the keys and values of a dict. -/
def jAnyCJKStrFields : List (String × JValue) → Bool
  | [] => false
  | (k, v) :: rest => contains_cjk k || jAnyCJKStr v || jAnyCJKStrFields rest

end

/-- Join strings with a separator. -/
def joinSep (sep : String) : List String → String
  | [] => ""
  | [x] => x
  | x :: xs => x ++ sep ++ joinSep sep xs


/-- JSON string escaping as in `json.dumps(..., ensure_ascii=False)`:
quotes, backslashes and control characters are escaped (all escapes are
pure ASCII); every other character — in particular every CJK character —
is written verbatim. -/
def jsonEscapeChar (c : Char) : String :=
  if c = '"' then "\\\""
  else if c = '\\' then "\\\\"
  else if c = '\n' then "\\n"
  else if c = '\r' then "\\r"
  else if c = '\t' then "\\t"
  else if c.toNat = 8 then "\\b"
  else if c.toNat = 12 then "\\f"
  else if c.toNat < 0x20 then "\\u00" ++ String.mk [Nat.digitChar (c.toNat / 16), Nat.digitChar (c.toNat % 16)]
  else String.mk [c]


/-- Escape a whole string for JSON output. -/
def jsonEscape (s : String) : String :=
  String.join (s.data.map jsonEscapeChar)


/-- Decimal rendering of a float (Python `repr`); exact only for
integral values.  Its output is ASCII-only and is never branched on by
the agent code, which is all the loop's language check needs. -/
def floatRepr (q : Rat) : String :=
  if q.den = 1 then toString q.num ++ ".0"
  else toString q.num ++ "e-" ++ toString q.den


mutual

/-- `json.dumps(obj, ensure_ascii=False)` with the default separators.
(The one call site that passes `indent=2` only embeds the dump in an
opaque conversation message, so indentation is elided.) -/
def jdump : JValue → String
  | .jnull => "null"
  | .jbool b => if b then "true" else "false"
  | .jint n => toString n
  | .jfloat q => floatRepr q
  | .jstr s => "\"" ++ jsonEscape s ++ "\""
  | .jarr items => "[" ++ jdumpList items ++ "]"
  | .jobj fields => "\x7b" ++ jdumpFields fields ++ "\x7d"

/-- Dump list elements, comma-separated. -/
def jdumpList : List JValue → String
  | [] => ""
  | [x] => jdump x
  | x :: xs => jdump x ++ ", " ++ jdumpList xs

/-- Dump dict entries, comma-separated. -/
def jdumpFields : List (String × JValue) → String
  | [] => ""
  | [(k, v)] => "\"" ++ jsonEscape k ++ "\": " ++ jdump v
  | (k, v) :: rest => "\"" ++ jsonEscape k ++ "\": " ++ jdump v ++ ", " ++ jdumpFields rest

end

mutual

/-- Python `str(v)` for a JSON value: strings pass through, everything
else renders as its `repr`.  (String `repr` quote-escaping is not
modelled; these renderings only ever feed opaque message/trace text.) -/
def pyStr : JValue → String
  | .jstr s => s
  | v => pyRepr v

/-- Python `repr(v)` for a JSON value. -/
def pyRepr : JValue → String
  | .jnull => "None"
  | .jbool b => if b then "True" else "False"
  | .jint n => toString n
  | .jfloat q => floatRepr q
  | .jstr s => "'" ++ s ++ "'"
  | .jarr items => "[" ++ pyReprList items ++ "]"
  | .jobj fields => "\x7b" ++ pyReprFields fields ++ "\x7d"

/-- `repr` of list elements, comma-separated. -/
def pyReprList : List JValue → String
  | [] => ""
  | [x] => pyRepr x
  | x :: xs => pyRepr x ++ ", " ++ pyReprList xs

/-- `repr` of dict entries, comma-separated. -/
def pyReprFields : List (String × JValue) → String
  | [] => ""
  | [(k, v)] => "'" ++ k ++ "': " ++ pyRepr v
  | (k, v) :: rest => "'" ++ k ++ "': " ++ pyRepr v ++ ", " ++ pyReprFields rest

end

/-- Python `str(x)` where `x` is `obj.get(...)`, i.e. possibly `None`
(f-string interpolation of a possibly missing value). -/
def pyStrOpt : Option JValue → String
  | none => "None"
  | some v => pyStr v


/-- Skip JSON whitespace (space, tab, newline, carriage return). -/
def skipWs : List Char → List Char
  | [] => []
  | c :: cs => if c = ' ' || c = '\t' || c = '\n' || c = '\r' then skipWs cs else c :: cs


/-- Hexadecimal digit value, by code-point arithmetic: `0`-`9` map to
0-9, `a`-`f` and `A`-`F` to 10-15, anything else to `none`. -/
def hexVal (c : Char) : Option Nat :=
  let n := c.toNat
  if 47 < n && n < 58 then some (n - 48)
  else if 96 < n && n < 103 then some (n - 87)
  else if 64 < n && n < 71 then some (n - 55)
  else none


/-- Body of a JSON string literal after the opening quote; returns the
decoded string and the input after the closing quote.  Escapes follow
`json.loads` in strict mode (raw control characters are rejected;
surrogate-pair recombination of `\uXXXX` escapes is not modelled). -/
def parseStringBody : Nat → List Char → List Char → Option (String × List Char)
  | 0, _, _ => none
  | _, [], _ => none
  | fuel + 1, c :: rest, acc =>
    if c = '"' then some (String.mk acc.reverse, rest)
    else if c = '\\' then
      match rest with
      | [] => none
      | e :: rest2 =>
        if e = '"' then parseStringBody fuel rest2 ('"' :: acc)
        else if e = '\\' then parseStringBody fuel rest2 ('\\' :: acc)
        else if e = '/' then parseStringBody fuel rest2 ('/' :: acc)
        else if e = 'b' then parseStringBody fuel rest2 (Char.ofNat 8 :: acc)
        else if e = 'f' then parseStringBody fuel rest2 (Char.ofNat 12 :: acc)
        else if e = 'n' then parseStringBody fuel rest2 ('\n' :: acc)
        else if e = 'r' then parseStringBody fuel rest2 ('\r' :: acc)
        else if e = 't' then parseStringBody fuel rest2 ('\t' :: acc)
        else if e = 'u' then
          match rest2 with
          | h1 :: h2 :: h3 :: h4 :: rest3 =>
            match hexVal h1, hexVal h2, hexVal h3, hexVal h4 with
            | some a, some b, some c2, some d =>
              parseStringBody fuel rest3 (Char.ofNat (((a * 16 + b) * 16 + c2) * 16 + d) :: acc)
            | _, _, _, _ => none
          | _ => none
        else none
    else if c.toNat < 0x20 then none
    else parseStringBody fuel rest (c :: acc)


/-- Ten to an integer power, as a rational. -/
def powTen (e : Int) : Rat :=
  if 0 ≤ e then ((10 ^ e.toNat : Nat) : Rat)
  else 1 / ((10 ^ (-e).toNat : Nat) : Rat)


/-- A JSON number literal per the `json` grammar: optional minus, an
integer part without superfluous leading zeros, optional fraction,
optional exponent.  A literal with fraction or exponent parses as a
float, otherwise as an int — mirroring `json.loads`. -/
def parseNumber (cs : List Char) : Option (JValue × List Char) :=
  let (neg, cs1) : Bool × List Char :=
    match cs with
    | '-' :: r => (true, r)
    | r => (false, r)
  let intDs := cs1.takeWhile isAsciiDigit
  if intDs = [] then none
  else if intDs.length > 1 && intDs.headD '0' = '0' then none
  else
    let rest1 := cs1.drop intDs.length
    let (hasFrac, fracDs, rest2) : Bool × List Char × List Char :=
      match rest1 with
      | '.' :: r =>
        let ds := r.takeWhile isAsciiDigit
        (true, ds, r.drop ds.length)
      | _ => (false, [], rest1)
    if hasFrac && fracDs = [] then none
    else
      let (hasExp, expVal, rest3) : Bool × Int × List Char :=
        match rest2 with
        | 'e' :: r | 'E' :: r =>
          let (es, r4) : Int × List Char :=
            match r with
            | '+' :: rr => (1, rr)
            | '-' :: rr => (-1, rr)
            | rr => (1, rr)
          let eds := r4.takeWhile isAsciiDigit
          if eds = [] then (false, 0, rest2)
          else (true, es * (digitsToNat eds : Int), r4.drop eds.length)
        | _ => (false, 0, rest2)
      let sign : Rat := if neg then -1 else 1
      if hasFrac || hasExp then
        some (.jfloat (sign * ((digitsToNat intDs : Rat) + fracToRat fracDs) * powTen expVal), rest3)
      else
        some (.jint ((if neg then -1 else 1) * (digitsToNat intDs : Int)), rest1)


/-- Match a literal continuation such as `rue` of `true`. -/
def parseLit (lit : List Char) (cs : List Char) (v : JValue) : Option (JValue × List Char) :=
  if lit.isPrefixOf cs then some (v, cs.drop lit.length) else none


mutual

/-- Recursive-descent JSON value parser, the decode half of Python's
`json.loads` (`NaN`/`Infinity` extensions are not modelled).  The fuel
drops on every recursive call; `jsonLoads` supplies enough for any
input. -/
def parseValue : Nat → List Char → Option (JValue × List Char)
  | 0, _ => none
  | fuel + 1, cs =>
    match skipWs cs with
    | [] => none
    | c :: rest =>
      if c = '{' then
        match skipWs rest with
        | '}' :: r => some (.jobj [], r)
        | _ => parseMembers fuel rest []
      else if c = '[' then
        match skipWs rest with
        | ']' :: r => some (.jarr [], r)
        | _ => parseItems fuel rest []
      else if c = '"' then
        match parseStringBody (rest.length + 1) rest [] with
        | some (s, r) => some (.jstr s, r)
        | none => none
      else if c = 't' then parseLit "rue".data rest (.jbool true)
      else if c = 'f' then parseLit "alse".data rest (.jbool false)
      else if c = 'n' then parseLit "ull".data rest .jnull
      else parseNumber (c :: rest)

/-- Members of a JSON object after the opening brace (when the object
is not empty).  Duplicate keys keep the last value at the position of
the first occurrence, as a Python dict does. -/
def parseMembers : Nat → List Char → List (String × JValue) → Option (JValue × List Char)
  | 0, _, _ => none
  | fuel + 1, cs, acc =>
    match skipWs cs with
    | '"' :: rest =>
      match parseStringBody (rest.length + 1) rest [] with
      | none => none
      | some (k, r1) =>
        match skipWs r1 with
        | ':' :: r2 =>
          match parseValue fuel r2 with
          | none => none
          | some (v, r3) =>
            let acc' := setField acc k v
            match skipWs r3 with
            | ',' :: r4 => parseMembers fuel r4 acc'
            | '}' :: r4 => some (.jobj acc', r4)
            | _ => none
        | _ => none
    | _ => none

/-- Items of a JSON array after the opening bracket (when the array is
not empty). -/
def parseItems : Nat → List Char → List JValue → Option (JValue × List Char)
  | 0, _, _ => none
  | fuel + 1, cs, acc =>
    match parseValue fuel cs with
    | none => none
    | some (v, r1) =>
      match skipWs r1 with
      | ',' :: r2 => parseItems fuel r2 (acc ++ [v])
      | ']' :: r2 => some (.jarr (acc ++ [v]), r2)
      | _ => none

end

/-- `json.loads`: parse a complete JSON document (trailing whitespace
allowed, trailing data rejected), `none` on any parse failure. -/
def jsonLoads (s : String) : Option JValue :=
  match parseValue (2 * s.data.length + 2) s.data with
  | some (v, rest) => if (skipWs rest).isEmpty then some v else none
  | none => none


/-- The fields of a parsed value when it is an object. -/
def asObjFields : Option JValue → Option (List (String × JValue))
  | some (.jobj fields) => some fields
  | _ => none


/-- The brace-depth scan of `extract_first_json_object`: starting at
the first `{`, increment depth on `{`, decrement on `}`; when depth
returns to zero report how many characters the candidate spans.  `none`
when the scan exhausts the text (Python's `for` loop falling through). -/
def scanObject : List Char → Int → Option Nat
  | [], _ => none
  | c :: cs, depth =>
    let depth' := if c = '{' then depth + 1 else if c = '}' then depth - 1 else depth
    if c = '}' ∧ depth' = 0 then some 1
    else
      match scanObject cs depth' with
      | some n => some (n + 1)
      | none => none


/-- `text.find("{")` followed by slicing: the suffix of the text that
starts at the first `{`, if any. -/
def dropUntilBrace : List Char → Option (List Char)
  | [] => none
  | c :: cs => if c = '{' then some (c :: cs) else dropUntilBrace cs


/-- Depth scan for the "no unmatched braces" side condition of the
spec's extractor property: every `}` has a `{` open before it and every
`{` is eventually closed (string contents are not interpreted). -/
def bracesNoUnmatchedAux : List Char → Int → Bool
  | [], d => d == 0
  | c :: cs, d =>
    let d' := if c = '{' then d + 1 else if c = '}' then d - 1 else d
    if d' < 0 then false else bracesNoUnmatchedAux cs d'


/-- A text "contains no unmatched braces". -/
def noUnmatchedBraces (cs : List Char) : Bool :=
  bracesNoUnmatchedAux cs 0


/-- `extract_first_json_object` from `agent_core.py`: locate the first
`{`, scan with the brace counter to the matching `}`, and `json.loads`
the candidate slice, returning `None` on any failure.  A successful
parse of a `{`-led candidate is always a dict, so the result is
returned as the dict's fields. -/
def extract_first_json_object (cs : List Char) : Option (List (String × JValue)) :=
  match dropUntilBrace cs with
  | none => none
  | some rest =>
    match scanObject rest 0 with
    | none => none
    | some n => asObjFields (jsonLoads (String.mk (rest.take n)))


/-- Python's `\w` (word character) restricted to the scripts that occur
in this codebase's questions and prompts: ASCII alphanumerics and
underscore, Hangul, and CJK ideographs.  (Python's full Unicode `\w`
covers more scripts, none of which appear here.) -/
def isWordChar (c : Char) : Bool :=
  ('a' ≤ c && c ≤ 'z') || ('A' ≤ c && c ≤ 'Z') || ('0' ≤ c && c ≤ '9') || c = '_'
    || (0xAC00 ≤ c.toNat && c.toNat ≤ 0xD7A3)
    || (0x1100 ≤ c.toNat && c.toNat ≤ 0x11FF)
    || (0x3130 ≤ c.toNat && c.toNat ≤ 0x318F)
    || (0x4E00 ≤ c.toNat && c.toNat ≤ 0x9FFF)


/-- First character class of the token group `[a-z0-9]` under
`re.IGNORECASE` (so uppercase also matches). -/
def isTokenStartChar (c : Char) : Bool :=
  ('a' ≤ c && c ≤ 'z') || ('A' ≤ c && c ≤ 'Z') || ('0' ≤ c && c ≤ '9')


/-- Continuation class of the token group `[a-z0-9\-]*` under
`re.IGNORECASE`. -/
def isTokenChar (c : Char) : Bool :=
  isTokenStartChar c || c = '-'


/-- Python's `\s` (whitespace) for the characters that can occur here. -/
def isSpaceChar (c : Char) : Bool :=
  c = ' ' || c = '\t' || c = '\n' || c = '\r' || c.toNat = 11 || c.toNat = 12


/-- Case-insensitive character comparison (ASCII case folding, which is
what `re.IGNORECASE` amounts to on these patterns). -/
def ciEqChar (a b : Char) : Bool :=
  a.toLower = b.toLower


/-- Case-insensitive list-prefix test. -/
def ciStartsWith : List Char → List Char → Bool
  | [], _ => true
  | _ :: _, [] => false
  | p :: ps, c :: cs => ciEqChar p c && ciStartsWith ps cs


/-- Try `f n`, `f (n-1)`, ..., `f 0` and return the first success —
the backtracking order of a greedy quantifier. -/
def firstSomeDesc {α : Type} : Nat → (Nat → Option α) → Option α
  | 0, f => f 0
  | n + 1, f =>
    match f (n + 1) with
    | some a => some a
    | none => firstSomeDesc n f


/-- Word boundary `\b` after a keyword match: the last matched
character is a word character in all our keywords, so the boundary
holds iff word-ness changes at the split. -/
def boundaryAfter (lastMatched : Char) (rest : List Char) : Bool :=
  isWordChar lastMatched != (match rest with | [] => false | c :: _ => isWordChar c)


/-- Attempt the pattern `([a-z0-9][a-z0-9\-]*)\s*(kw₁|kw₂)\b` at the
current position (the leading `\b` has been checked by the caller):
greedy token with backtracking, greedy whitespace with backtracking,
keyword alternation in pattern order, trailing boundary.  Returns the
captured token. -/
def matchTokenKeywordAt (kws : List (List Char)) (cs : List Char) : Option (List Char) :=
  match cs with
  | [] => none
  | c :: _ =>
    if !isTokenStartChar c then none
    else
      let token := cs.takeWhile isTokenChar
      firstSomeDesc (token.length - 1) (fun lenM1 =>
        let len := lenM1 + 1
        let t1 := token.take len
        let rest := cs.drop len
        let ws := rest.takeWhile isSpaceChar
        firstSomeDesc ws.length (fun w =>
          let rest2 := rest.drop w
          (kws.map (fun kw =>
              if ciStartsWith kw rest2 &&
                  boundaryAfter ((rest2.take kw.length).getLastD 'x') (rest2.drop kw.length) then
                some t1
              else none)).foldl (fun acc o => match acc with | some a => some a | none => o) none))


/-- `re.search` of the token-keyword pattern: try every position left
to right; the leading `\b` requires the previous character (if any) to
be a non-word character, the token group then requires a word
character. -/
def searchTokenKeyword (kws : List (List Char)) : Option Char → List Char → Option (List Char)
  | _, [] => none
  | prev, c :: cs =>
    let bOk := match prev with
      | none => true
      | some p => !isWordChar p
    match (if bOk then matchTokenKeywordAt kws (c :: cs) else none) with
    | some g => some g
    | none => searchTokenKeyword kws (some c) cs


/-- `extract_namespace_from_question` from `agent_core.py`: search for
`<token> (네임스페이스|namespace)`, case-insensitively, and return the
stripped token. -/
def extract_namespace_from_question (question : String) : Option String :=
  (searchTokenKeyword ["네임스페이스".data, "namespace".data] none question.data).map
    (fun cs => pyStrip (String.mk cs))


/-- `extract_cluster_from_question` from `agent_core.py`: search for
`<token> (클러스터|cluster)`, case-insensitively, and return the
stripped token. -/
def extract_cluster_from_question (question : String) : Option String :=
  (searchTokenKeyword ["클러스터".data, "cluster".data] none question.data).map
    (fun cs => pyStrip (String.mk cs))


/-- Attempt the pattern `최근(\d+)(주일|주|일|시간|분)` at the current
position.  The units contain no digits, so the greedy `\d+` needs no
backtracking; the alternation tries `주일` before `주`. -/
def matchWindowAt (cs : List Char) : Option Int :=
  if "최근".data.isPrefixOf cs then
    let rest := cs.drop 2
    let ds := rest.takeWhile isAsciiDigit
    if ds = [] then none
    else
      let n : Int := (digitsToNat ds : Int)
      let rest2 := rest.drop ds.length
      if "주일".data.isPrefixOf rest2 then some (n * 7 * 24 * 60)
      else if "주".data.isPrefixOf rest2 then some (n * 7 * 24 * 60)
      else if "일".data.isPrefixOf rest2 then some (n * 24 * 60)
      else if "시간".data.isPrefixOf rest2 then some (n * 60)
      else if "분".data.isPrefixOf rest2 then some n
      else none
  else none


/-- `re.search` of the window pattern: leftmost match. -/
def searchWindow : List Char → Option Int
  | [] => none
  | c :: cs =>
    match matchWindowAt (c :: cs) with
    | some n => some n
    | none => searchWindow cs


/-- `parse_window_minutes_ko` from `agent_core.py`: strip spaces, then
search `최근(\d+)(주일|주|일|시간|분)` and convert the unit to minutes. -/
def parse_window_minutes_ko (question : String) : Option Int :=
  searchWindow (question.data.filter (fun c => c ≠ ' '))


/-- Substring test (Python `pat in hay`). -/
def containsSub (hay pat : List Char) : Bool :=
  match hay with
  | [] => pat.isEmpty
  | _ :: rest => pat.isPrefixOf hay || containsSub rest pat


/-- `choose_status_from_question` from `agent_core.py`: explicit
warn/info/debug markers (English ones on the lowercased question, the
Korean ones on the original), defaulting to `"error"`. -/
def choose_status_from_question (question : String) : String :=
  let q := question.data.map Char.toLower
  if containsSub q "warn".data || containsSub q "warning".data
      || containsSub question.data "경고".data then "warn"
  else if containsSub q "info".data || containsSub question.data "정보".data then "info"
  else if containsSub q "debug".data || containsSub question.data "디버그".data then "debug"
  else "error"


/-- The deterministic hints `run_agent` derives from the question
before entering its loop. -/
structure Hints where
  cluster : Option String
  ns : Option String
  window : Option Int
  status : String


/-- Hint extraction as performed at the top of `run_agent`. -/
def hintsFromQuestion (question : String) : Hints where
  cluster := extract_cluster_from_question question
  ns := extract_namespace_from_question question
  window := parse_window_minutes_ko question
  status := choose_status_from_question question


/-- The process-wide tunables of `agent_core.py`, read from the
environment once at import time (`MAX_TOOL_CALLS`, `MAX_LANG_RETRY`,
`WINDOW_MIN/MAX`, `LIMIT_MIN/MAX`), passed explicitly here. -/
structure Config where
  maxToolCalls : Nat
  maxLangRetry : Nat
  windowMin : Int
  windowMax : Int
  limitMin : Int
  limitMax : Int


/-- The default environment values: `AGENT_MAX_TOOL_CALLS=2`,
`AGENT_LANG_RETRY=3`, window `[5, 20160]`, limit `[1, 20]`. -/
def defaultConfig : Config where
  maxToolCalls := 2
  maxLangRetry := 3
  windowMin := 5
  windowMax := 20160
  limitMin := 1
  limitMax := 20


/-- Python truthiness of an optional hint string (`if hinted_cluster:`). -/
def truthyStr : Option String → Bool
  | some s => s != ""
  | none => false


/-- Python truthiness of the optional window hint (`if hinted_window:`). -/
def truthyWin : Option Int → Bool
  | some w => w != 0
  | none => false


/-- Condition under which the cluster hint fires (line 382):
`not isinstance(args_obj.get("cluster"), str) or not
args_obj.get("cluster", "").strip()`. -/
def clusterNeedsFill (fs : List (String × JValue)) : Bool :=
  match getField fs "cluster" with
  | some (.jstr s) => pyStrip s == ""
  | some _ => true
  | none => true


/-- Condition under which the namespace hint fires (line 384):
`args_obj.get("namespace") in (None, "", "null")`. -/
def nsIsNullish (fs : List (String × JValue)) : Bool :=
  match getField fs "namespace" with
  | none => true
  | some .jnull => true
  | some (.jstr s) => s == "" || s == "null"
  | some _ => false


/-- Condition under which the status hint fires (line 388):
`args_obj.get("status") is None`. -/
def statusIsNone (fs : List (String × JValue)) : Bool :=
  match getField fs "status" with
  | none => true
  | some .jnull => true
  | some _ => false


/-- The deterministic hint backfill of `run_agent` (lines 380–390):
`obj.setdefault("args", {})`, `args_obj = obj["args"] or {}`, then the
four guarded hint injections, then `obj["args"] = args_obj`.  A truthy
non-dict `args` raises at the first attribute access or item
assignment the active hints perform. -/
def applyHints (hints : Hints) (obj : List (String × JValue)) :
    Except PyErr (List (String × JValue)) :=
  let obj1 := if (getField obj "args").isNone then obj ++ [("args", .jobj [])] else obj
  let argsV0 := (getField obj1 "args").getD .jnull
  let argsV := if pyTruthy argsV0 then argsV0 else .jobj []
  match argsV with
  | .jobj fs =>
    let fs1 := if truthyStr hints.cluster && clusterNeedsFill fs then
        setField fs "cluster" (.jstr (hints.cluster.getD "")) else fs
    let fs2 := if truthyStr hints.ns && nsIsNullish fs1 then
        setField fs1 "namespace" (.jstr (hints.ns.getD "")) else fs1
    let fs3 := if truthyWin hints.window then
        setField fs2 "window_minutes" (.jint (hints.window.getD 0)) else fs2
    let fs4 := if hints.status != "" && statusIsNone fs3 then
        setField fs3 "status" (.jstr hints.status) else fs3
    .ok (setField obj1 "args" (.jobj fs4))
  | v =>
    if truthyStr hints.cluster then
      .error (.attributeError ("'" ++ pyTypeName v ++ "' object has no attribute 'get'"))
    else if truthyStr hints.ns then
      .error (.attributeError ("'" ++ pyTypeName v ++ "' object has no attribute 'get'"))
    else if truthyWin hints.window then
      .error (.typeError ("'" ++ pyTypeName v ++ "' object does not support item assignment"))
    else if hints.status != "" then
      .error (.attributeError ("'" ++ pyTypeName v ++ "' object has no attribute 'get'"))
    else .ok (setField obj1 "args" v)


/-- The whitelist check `tool not in ("current_error_services",
"increasing_error_services")` (equality against strings, so a
non-string tool value never passes). -/
def whitelistedTool : Option JValue → Bool
  | some (.jstr t) => t == "current_error_services" || t == "increasing_error_services"
  | _ => false


/-- The argument checks of `validate_and_normalize_call` after the
action and whitelist gates.  Mirrors the mutation order of the Python
code: on an error, the returned call reflects exactly the
normalizations already assigned (when `args` was truthy it is the same
dict object as `call["args"]`, so earlier assignments are visible in
the dumped call; when it was falsy a fresh dict was used and the
original call is unchanged). -/
def validateArgs (cfg : Config) (call : List (String × JValue)) (aliased : Bool) (tool : String)
    (fs : List (String × JValue)) :
    Except (PyErr × List (String × JValue)) (List (String × JValue)) :=
  let errAt : List (String × JValue) → PyErr →
      Except (PyErr × List (String × JValue)) (List (String × JValue)) :=
    fun fsCur e =>
      .error (e, if aliased then setField call "args" (.jobj fsCur) else call)
  match getField fs "cluster" with
  | some (.jstr c) =>
    if pyStrip c = "" then errAt fs (.valueError "cluster must be specified explicitly")
    else
      let fs1 := setField fs "cluster" (.jstr (pyStrip c))
      let statusV0 := (getField fs1 "status").getD (.jstr "error")
      let statusV : JValue := match statusV0 with
        | .jnull => .jstr "error"
        | v => v
      match statusV with
      | .jstr st =>
        let stN := if pyStrip st = "" then "error" else pyStrip st
        let fs2 := setField fs1 "status" (.jstr stN)
        let nsStep : Except (PyErr × List (String × JValue)) (List (String × JValue)) :=
          match getField fs2 "namespace" with
          | none => .ok (setField fs2 "namespace" .jnull)
          | some .jnull => .ok (setField fs2 "namespace" .jnull)
          | some (.jstr ns) =>
            .ok (setField fs2 "namespace" (if pyStrip ns = "" then .jnull else .jstr (pyStrip ns)))
          | some _ => errAt fs2 (.valueError "namespace must be a string or null")
        match nsStep with
        | .error e => .error e
        | .ok fs3 =>
          match pyInt ((getField fs3 "window_minutes").getD (.jint 15)) with
          | .error e => errAt fs3 e
          | .ok w =>
            match pyInt ((getField fs3 "limit").getD (.jint 10)) with
            | .error e => errAt fs3 e
            | .ok l =>
              let fs4 := setField fs3 "window_minutes" (.jint (clamp_int w cfg.windowMin cfg.windowMax))
              let fs5 := setField fs4 "limit" (.jint (clamp_int l cfg.limitMin cfg.limitMax))
              if tool = "increasing_error_services" then
                match pyInt ((getField fs5 "min_delta").getD (.jint 10)) with
                | .error e => errAt fs5 e
                | .ok d =>
                  let fs6 := setField fs5 "min_delta" (.jint (clamp_int d 1 999999))
                  match pyFloat ((getField fs6 "min_ratio").getD (.jfloat 2)) with
                  | .error e => errAt fs6 e
                  | .ok r =>
                    let fs7 := setField fs6 "min_ratio" (.jfloat (clamp_float r 1 100))
                    .ok (setField call "args" (.jobj fs7))
              else .ok (setField call "args" (.jobj fs5))
      | _ => errAt fs1 (.valueError "status must be a string")
  | some _ => errAt fs (.valueError "cluster must be specified explicitly")
  | none => errAt fs (.valueError "cluster must be specified explicitly")


/-- `validate_and_normalize_call` from `agent_core.py`.  Errors carry
the call as it would be observed by the caller's `except` branch (the
Python code mutates the dicts in place). -/
def validate_and_normalize_call (cfg : Config) (call : List (String × JValue)) :
    Except (PyErr × List (String × JValue)) (List (String × JValue)) :=
  match getField call "action" with
  | some (.jstr "tool_call") =>
    let tool := getField call "tool"
    let argsV0 := (getField call "args").getD .jnull
    let argsV := if pyTruthy argsV0 then argsV0 else .jobj []
    let aliased := pyTruthy argsV0
    if !whitelistedTool tool then
      .error (.valueError ("Tool not allowed: " ++ pyStrOpt tool), call)
    else
      let toolName := match tool with
        | some (.jstr t) => t
        | _ => ""
      match argsV with
      | .jobj fs => validateArgs cfg call aliased toolName fs
      | v => .error (.attributeError ("'" ++ pyTypeName v ++ "' object has no attribute 'get'"), call)
  | _ => .error (.valueError "Not a tool_call action", call)


/-- The keyword parameters accepted by the two client wrappers in
`tools_client.py`; `run_tool` unpacks `**args`, so any other key raises
`TypeError`. -/
def kwargsAllowed (tool : String) : List String :=
  if tool = "increasing_error_services" then
    ["cluster", "window_minutes", "limit", "min_delta", "min_ratio", "status", "namespace"]
  else
    ["cluster", "window_minutes", "limit", "status", "namespace"]


/-- `run_tool` from `agent_core.py`: dispatch to one of the two client
wrappers with `**args`.  The external HTTP call is the abstract
`tools` function, whose own failure propagates uncaught. -/
def run_tool (tools : String → JValue → Except PyErr JValue) (tool : String)
    (args : List (String × JValue)) : Except PyErr JValue :=
  if tool = "current_error_services" || tool = "increasing_error_services" then
    match args.find? (fun kv => !(kwargsAllowed tool).contains kv.1) with
    | some kv =>
      .error (.typeError (tool ++ "() got an unexpected keyword argument '" ++ kv.1 ++ "'"))
    | none => tools tool (.jobj args)
  else .error (.valueError "Unknown tool")


/-- Python `x[0]` on a JSON value. -/
def subscriptZero : JValue → Except PyErr JValue
  | .jarr (x :: _) => .ok x
  | .jarr [] => .error (.indexError "list index out of range")
  | .jstr s =>
    match s.data with
    | c :: _ => .ok (.jstr (String.mk [c]))
    | [] => .error (.indexError "string index out of range")
  | .jobj _ => .error (.keyError "0")
  | v => .error (.typeError ("'" ++ pyTypeName v ++ "' object is not subscriptable"))


/-- The row loop of `compact_tool_result`: each of the top services is
reduced to its six identity/numeric fields (missing ones become null,
as `dict.get` yields `None`) plus at most one sample truncated to 220
characters. -/
def compactRows : List JValue → Except PyErr (List JValue)
  | [] => .ok []
  | s :: rest =>
    match s with
    | .jobj sf =>
      let row := [("service", (getField sf "service").getD .jnull),
                  ("count", (getField sf "count").getD .jnull),
                  ("previous", (getField sf "previous").getD .jnull),
                  ("current", (getField sf "current").getD .jnull),
                  ("delta", (getField sf "delta").getD .jnull),
                  ("ratio", (getField sf "ratio").getD .jnull)]
      let samplesV := (getField sf "samples").getD .jnull
      let samples := if pyTruthy samplesV then samplesV else .jarr []
      if pyTruthy samples then
        match subscriptZero samples with
        | .error e => .error e
        | .ok first =>
          let row' := row ++ [("sample", .jstr (String.mk ((pyStr first).data.take 220)))]
          match compactRows rest with
          | .error e => .error e
          | .ok rows => .ok (.jobj row' :: rows)
      else
        match compactRows rest with
        | .error e => .error e
        | .ok rows => .ok (.jobj row :: rows)
    | v => .error (.attributeError ("'" ++ pyTypeName v ++ "' object has no attribute 'get'"))


/-- `result.get("window") or result.get("comparison")`. -/
def windowOrComparison (rf : List (String × JValue)) : JValue :=
  let w := (getField rf "window").getD .jnull
  if pyTruthy w then w else (getField rf "comparison").getD .jnull


/-- `compact_tool_result` from `agent_core.py`. -/
def compact_tool_result (tool : String) (result : JValue) : Except PyErr JValue :=
  match result with
  | .jobj rf =>
    let servicesRaw := (getField rf "services").getD .jnull
    let services := if pyTruthy servicesRaw then servicesRaw else .jarr []
    match services with
    | .jarr items =>
      match compactRows (items.take 5) with
      | .error e => .error e
      | .ok rows =>
        .ok (.jobj [("tool", .jstr tool),
                    ("summary", (getField rf "summary").getD .jnull),
                    ("window", windowOrComparison rf),
                    ("services_total", .jint (items.length : Int)),
                    ("services_top5", .jarr rows)])
    | .jstr _ =>
      -- a truthy string slices into its first characters, whose
      -- attribute lookup then fails in the row loop
      .error (.attributeError "'str' object has no attribute 'get'")
    | .jobj _ => .error (.typeError "unhashable type: 'slice'")
    | v => .error (.typeError ("'" ++ pyTypeName v ++ "' object is not subscriptable"))
  | v => .error (.attributeError ("'" ++ pyTypeName v ++ "' object has no attribute 'get'"))


/-- `LANG_SPEC` from `agent_core.py` (after `.strip()`). -/
def LANG_SPEC : String :=
  "당신은 SRE/AIOps 보조 에이전트입니다.\n\n[필수 규칙]\n- 모든 자연어 출력은 반드시 한국어로만 작성하십시오. (중국어/영어/일본어 금지)\n- 반드시 JSON만 출력하십시오. JSON 외 텍스트(설명, 마크다운, 코드블록) 금지.\n- JSON 키는 TOOL_SPEC에 정의된 영문 키를 그대로 사용하십시오.\n- title/summary/findings/next_actions의 모든 문자열은 한국어로만 작성하십시오.\n- next_actions는 3~5개로 작성하고, 각 항목은 실행 가능한 짧은 한국어 문장으로 작성하십시오.\n- 시스템 오류/제약 안내가 필요하면 한국어로만 작성하십시오.\n- 비한국어(특히 중국어/한자)가 포함되면 즉시 잘못된 출력입니다. 절대로 포함하지 마십시오."


/-- `TOOL_SPEC` from `prompts.py` (after `.strip()`; abridged
formatting of the JSON examples uses escaped braces).  The loop never
branches on this text: it is only the second system message. -/
def TOOL_SPEC : String :=
  "당신은 Datadog 로그 분석을 위해 '도구(tool)'를 호출할 수 있는 에이전트입니다.\n\n[최우선 규칙]\n- 모든 자연어 출력은 반드시 한국어로만 작성합니다. (중국어/한자/영어/일본어 사용 금지)\n- 반드시 JSON 객체 1개만 출력합니다. JSON 외 텍스트(설명/마크다운/코드블록) 금지.\n- 아래 스키마 외의 키를 추가하지 않습니다.\n\n가능한 action은 2가지입니다.\n1) tool_call\n2) final\n\n------------------------------------------------------------\n1) tool_call 형식\n------------------------------------------------------------\n다음 JSON 형태로만 도구 호출을 요청합니다.\n\n\x7b\n  \"action\": \"tool_call\",\n  \"tool\": \"<tool_name>\",\n  \"args\": \x7b ... \x7d\n\x7d\n\n- tool_name 허용 목록:\n  - \"current_error_services\"\n  - \"increasing_error_services\"\n\n- args 규칙:\n  - cluster: string (필수, 사용자 질문에 명시된 값만 사용. 추측/기본값 금지)\n  - window_minutes: int (선택, 기본 15)\n  - limit: int (선택, 기본 10)\n  \n[namespace 추출 규칙]\n- 사용자가 \"<네임스페이스> 네임스페이스\" 또는 \"<네임스페이스> namespace\"라고 말하면,\n  args.namespace에 해당 값을 반드시 넣으십시오.\n  예) \"dtslm 네임스페이스\" -> \"namespace\": \"dtslm\"\n- 사용자가 네임스페이스를 언급하지 않으면 args.namespace는 넣지 않거나 null로 두십시오.\n\n- increasing_error_services 추가 args:\n  - min_delta: int (선택, 기본 10)\n  - min_ratio: float (선택, 기본 2.0)\n\n------------------------------------------------------------\n2) final 형식\n------------------------------------------------------------\n도구 호출이 더 이상 필요 없으면 반드시 아래 JSON 형태로 종료합니다.\n\n\x7b\n  \"action\": \"final\",\n  \"title\": \"<짧은 제목(한국어)>\",\n  \"summary\": \"<요약(한국어)>\",\n  \"findings\": [\n    \"<관찰/근거/수치(한국어)>\"\n  ],\n  \"next_actions\": [\n    \"<다음 액션(한국어)>\"\n  ]\n\x7d\n\n[final 규칙]\n- title/summary/findings/next_actions는 반드시 한국어로만 작성합니다.\n- next_actions는 3~5개, 실행 가능한 짧은 문장으로 작성합니다.\n- 시스템 제약/오류 안내가 필요하면 한국어로 작성합니다.\n  (예: \"시간 창이 너무 큽니다. window_minutes를 더 작게 지정해 주세요.\")\n\n------------------------------------------------------------\n전략(권장)\n------------------------------------------------------------\n- \"최근 에러가 발생하는 서비스\" 성격이면 current_error_services를 호출합니다.\n- \"에러가 증가하는 서비스\" 성격이면 increasing_error_services를 호출합니다.\n- 도구 결과를 받은 뒤, 추가 드릴다운이 꼭 필요할 때만 다음 tool_call을 수행하고,\n  그렇지 않으면 final로 종료합니다.\n- 질문에 '네임스페이스'가 포함되면 반드시 namespace를 tool_call args에 포함하십시오.\n\n이제 사용자의 질문에 대해 위 규칙을 준수하여 응답하십시오."


/-- The corrective instruction injected when the raw reply contains a
CJK character (lines 313–320). -/
def RAW_LANG_CORRECTION : String :=
  "방금 출력에 중국어/한자 문자가 포함되었습니다.\n- 중국어/한자/영어를 절대 사용하지 마십시오.\n- 한국어로만, 그리고 JSON만 출력하십시오.\n- 반드시 JSON 객체 1개만 출력하십시오."


/-- The corrective instruction injected when a `final` envelope
contains a CJK character (lines 357–366). -/
def FINAL_LANG_CORRECTION : String :=
  "방금 출력에 중국어/한자 문자가 포함되었습니다.\n- 중국어/한자/영어를 절대 사용하지 마십시오.\n- 한국어로만 다시 작성하십시오.\n- 반드시 action=final JSON 1개만 출력하십시오.\n- 특히 findings/next_actions에 비한국어 문자가 들어가면 안 됩니다."


/-- The corrective instruction injected when the tool-call ceiling has
been reached (line 375). -/
def LIMIT_REACHED_MSG : String :=
  "Tool call limit reached. Output action=final JSON now (Korean-only, JSON-only)."


/-- The corrective instruction injected on a validation failure
(lines 396–399). -/
def invalidCallMsg (e : String) : String :=
  "Tool call is invalid: " ++ e ++
    ". 사용자에게 필요한 추가 정보를 한국어로 질문하고 action=final JSON으로 종료하십시오."


/-- The conversation message carrying a compacted tool result
(lines 414–419). -/
def toolResultMsg (compact : JValue) : String :=
  "Tool result:\n" ++ jdump compact ++
    "\n\n다음 단계 결정: 추가 드릴다운이 도움이 되면 또 다른 tool_call을 하십시오. 아니면 action=final로 한국어 JSON만 출력하십시오."


/-- The fixed diagnostic `final` envelope returned when no JSON object
could be extracted from the reply (lines 327–337). -/
def noJsonFinal : JValue :=
  .jobj [("action", .jstr "final"),
         ("title", .jstr "LLM 출력 오류"),
         ("summary", .jstr "LLM이 유효한 JSON을 반환하지 않았습니다. 모델/프롬프트 규칙을 확인하십시오."),
         ("findings", .jarr []),
         ("next_actions", .jarr
           [.jstr "OLLAMA_MODEL과 TOOL_SPEC 규칙을 확인합니다.",
            .jstr "LLM이 JSON만 출력하도록 system prompt를 강화합니다.",
            .jstr "동일 질문으로 재시도해 출력 형식을 확인합니다."])]


/-- The fixed diagnostic `final` envelope returned on an unrecognized
action (lines 422–432). -/
def unknownActionFinal (action : Option JValue) (obj : List (String × JValue)) : JValue :=
  .jobj [("action", .jstr "final"),
         ("title", .jstr "알 수 없는 action"),
         ("summary", .jstr ("LLM이 알 수 없는 action을 반환했습니다: " ++ pyStrOpt action)),
         ("findings", .jarr [.jobj obj]),
         ("next_actions", .jarr
           [.jstr "TOOL_SPEC의 action 정의를 점검합니다.",
            .jstr "모델이 JSON 규칙을 준수하는지 확인합니다.",
            .jstr "동일 질문으로 재시도하여 출력 패턴을 확인합니다."])]


/-- A conversation message. -/
structure Msg where
  role : String
  content : String
  deriving DecidableEq, Repr


/-- Trace entries, one constructor per `"type"` tag the Python code
appends: `llm_raw_rejected_language`, `llm_raw`,
`final_rejected_language`, `final_sanitized`, `final`,
`tool_call_rejected`, `tool_call_invalid`, `tool_call`, `tool_result`,
`unknown_action`. -/
inductive TraceEntry where
  | llmRawRejectedLanguage (content : String) (retry : Nat)
  | llmRaw (content : String)
  | finalRejectedLanguage (content : List (String × JValue)) (retry : Nat)
  | finalSanitized (content : JValue)
  | finalDone (content : List (String × JValue))
  | toolCallRejected (reason : String) (call : List (String × JValue))
  | toolCallInvalid (err : String) (call : List (String × JValue))
  | toolCallDone (call : List (String × JValue))
  | toolResultDone (result : JValue)
  | unknownAction (content : List (String × JValue))


/-- The loop-local state of one `run_agent` invocation: the
conversation, the two counters, the trace, and the number of
chat-backend calls made so far. -/
structure AgentState where
  messages : List Msg
  toolCalls : Nat
  langRetry : Nat
  trace : List TraceEntry
  llmCalls : Nat


/-- Everything fixed for the duration of one `run_agent` invocation.
The chat backend (`llm_chat`) is modelled as an adversarial stream of
replies indexed by the number of calls made so far: the conversation at
any call is a deterministic function of the question and the earlier
replies, so quantifying over streams covers every possible backend
behaviour, and any single stream is a realizable behaviour.  The two
analysis tools are an abstract function that may fail. -/
structure Ctx where
  cfg : Config
  hints : Hints
  stream : Nat → String
  tools : String → JValue → Except PyErr JValue


/-- Outcome of one iteration of the `while True` loop. -/
inductive StepOut where
  | cont (s : AgentState)
  | ret (final : JValue) (s : AgentState)
  | raise (e : PyErr) (s : AgentState)


/-- Outcome of running the loop with a given iteration budget:
`ok`/`raise` mirror Python's return and uncaught exception; `out`
means the budget was exhausted with the loop still running. -/
inductive RunResult where
  | ok (final : JValue) (s : AgentState)
  | raise (e : PyErr) (s : AgentState)
  | out (s : AgentState)


/-- The raw-language retry subloop (lines 307–322): while the reply
contains a CJK character and fewer than 2 retries have been spent,
record the rejection, append the corrective exchange, and ask the
backend again.  `budget` starts at 2 and `done` at 0. -/
def rawRetryAux (ctx : Ctx) : Nat → Nat → String → AgentState → String × AgentState
  | 0, _, t, s => (t, s)
  | budget + 1, done, t, s =>
    if contains_cjk t then
      let s1 : AgentState := { s with
        trace := s.trace ++ [.llmRawRejectedLanguage t (done + 1)],
        messages := s.messages ++ [⟨"assistant", t⟩, ⟨"user", RAW_LANG_CORRECTION⟩] }
      let t1 := ctx.stream s1.llmCalls
      rawRetryAux ctx budget (done + 1) t1 { s1 with llmCalls := s1.llmCalls + 1 }
    else (t, s)


/-- The `action == "final"` branch (lines 343–370). -/
def handleFinal (ctx : Ctx) (s : AgentState) (obj : List (String × JValue)) : StepOut :=
  let dump := jdump (.jobj obj)
  if contains_cjk dump then
    let lr := s.langRetry + 1
    let s1 : AgentState :=
      { s with langRetry := lr, trace := s.trace ++ [.finalRejectedLanguage obj lr] }
    if ctx.cfg.maxLangRetry ≤ lr then
      let sanitized := sanitize_korean_only (.jobj obj)
      .ret sanitized { s1 with trace := s1.trace ++ [.finalSanitized sanitized] }
    else
      .cont { s1 with
        messages := s1.messages ++ [⟨"assistant", dump⟩, ⟨"user", FINAL_LANG_CORRECTION⟩] }
  else
    .ret (.jobj obj) { s with trace := s.trace ++ [.finalDone obj] }


/-- The `action == "tool_call"` branch (lines 372–420): ceiling gate,
hint backfill, validation, then execution, compaction and the
conversation append.  Only `ValueError` from validation is caught;
backfill/coercion `TypeError`s and tool failures raise. -/
def handleToolCall (ctx : Ctx) (s : AgentState) (obj : List (String × JValue)) : StepOut :=
  if ctx.cfg.maxToolCalls ≤ s.toolCalls then
    .cont { s with
      messages := s.messages ++ [⟨"assistant", jdump (.jobj obj)⟩, ⟨"user", LIMIT_REACHED_MSG⟩],
      trace := s.trace ++ [.toolCallRejected "limit_reached" obj] }
  else
    match applyHints ctx.hints obj with
    | .error e => .raise e s
    | .ok obj1 =>
      match validate_and_normalize_call ctx.cfg obj1 with
      | .error (.valueError msg, objE) =>
        .cont { s with
          messages := s.messages ++ [⟨"assistant", jdump (.jobj objE)⟩, ⟨"user", invalidCallMsg msg⟩],
          trace := s.trace ++ [.toolCallInvalid msg objE] }
      | .error (e, _) => .raise e s
      | .ok call =>
        let tool := match getField call "tool" with
          | some (.jstr t) => t
          | _ => ""   -- unreachable: validation guarantees a whitelisted string tool
        let args := match getField call "args" with
          | some (.jobj fs) => fs
          | _ => []   -- unreachable: validation assigns a dict of args
        let s1 := { s with toolCalls := s.toolCalls + 1 }
        match run_tool ctx.tools tool args with
        | .error e => .raise e s1
        | .ok result =>
          match compact_tool_result tool result with
          | .error e => .raise e s1
          | .ok compact =>
            .cont { s1 with
              trace := s1.trace ++ [.toolCallDone call, .toolResultDone compact],
              messages := s1.messages ++
                [⟨"assistant", jdump (.jobj call)⟩, ⟨"user", toolResultMsg compact⟩] }


/-- Parse the (raw-language-checked) reply and dispatch on the declared
action (lines 324–434).  `if not obj:` treats both a missing object and
an empty dict as extraction failure. -/
def dispatchStep (ctx : Ctx) (s : AgentState) (text : String) : StepOut :=
  match extract_first_json_object text.data with
  | none => .ret noJsonFinal { s with trace := s.trace ++ [.llmRaw text] }
  | some obj =>
    if obj.isEmpty then .ret noJsonFinal { s with trace := s.trace ++ [.llmRaw text] }
    else
      let action := getField obj "action"
      match action with
      | some (.jstr "final") => handleFinal ctx s obj
      | some (.jstr "tool_call") => handleToolCall ctx s obj
      | _ => .ret (unknownActionFinal action obj) { s with trace := s.trace ++ [.unknownAction obj] }


/-- One iteration of the `while True` loop of `run_agent`: one backend
call, the raw-language retry subloop, then parse and dispatch. -/
def loopStep (ctx : Ctx) (s : AgentState) : StepOut :=
  let t0 := ctx.stream s.llmCalls
  let p := rawRetryAux ctx 2 0 t0 { s with llmCalls := s.llmCalls + 1 }
  dispatchStep ctx p.2 p.1


/-- The `while True` loop of `run_agent`, with an explicit iteration
budget.  The loop terminates (in Python) exactly when some budget makes
the result terminal. -/
def runLoop (ctx : Ctx) : Nat → AgentState → RunResult
  | 0, s => .out s
  | fuel + 1, s =>
    match loopStep ctx s with
    | .cont s1 => runLoop ctx fuel s1
    | .ret f s1 => .ok f s1
    | .raise e s1 => .raise e s1


/-- The conversation and counters `run_agent` sets up before entering
its loop (lines 288–296). -/
def initAgentState (question : String) : AgentState where
  messages := [⟨"system", LANG_SPEC⟩, ⟨"system", TOOL_SPEC⟩, ⟨"user", question⟩]
  toolCalls := 0
  langRetry := 0
  trace := []
  llmCalls := 0


/-- `run_agent` from `agent_core.py`: derive the deterministic hints
from the question, seed the conversation, and run the loop.  The
Python function returns `(final_json, trace)`; here the trace lives in
the final state and the fuel makes the iteration count explicit. -/
def run_agent (cfg : Config) (stream : Nat → String)
    (tools : String → JValue → Except PyErr JValue) (question : String) (fuel : Nat) :
    RunResult :=
  runLoop
    { cfg := cfg, hints := hintsFromQuestion question, stream := stream, tools := tools }
    fuel (initAgentState question)


/-- The state carried by any outcome. -/
def RunResult.state : RunResult → AgentState
  | .ok _ s => s
  | .raise _ s => s
  | .out s => s


/-- The returned `final` envelope, when the loop returned one. -/
def RunResult.finalValue : RunResult → Option JValue
  | .ok f _ => some f
  | _ => none


/-- The uncaught exception, when the loop raised one. -/
def RunResult.errValue : RunResult → Option PyErr
  | .raise e _ => some e
  | _ => none


/-- Whether the loop finished (returned or raised) within the budget. -/
def RunResult.isTerminal : RunResult → Bool
  | .out _ => false
  | _ => true


/-- Recognize a `tool_call` trace entry, appended exactly when an
external tool invocation has been executed. -/
def isToolRunEntry : TraceEntry → Bool
  | .toolCallDone _ => true
  | _ => false


/-- Recognize a `final_rejected_language` trace entry. -/
def isFinalRejectedEntry : TraceEntry → Bool
  | .finalRejectedLanguage _ _ => true
  | _ => false


/-- Recognize a `final_sanitized` trace entry, appended exactly when
the sanitizing fallback has fired. -/
def isFinalSanitizedEntry : TraceEntry → Bool
  | .finalSanitized _ => true
  | _ => false


/-- Number of executed-tool-invocation records in a trace. -/
def countToolRuns (tr : List TraceEntry) : Nat :=
  tr.countP isToolRunEntry


/-- Number of final-stage language rejections in a trace. -/
def countFinalRejected (tr : List TraceEntry) : Nat :=
  tr.countP isFinalRejectedEntry


/-- The state carried by any step outcome. -/
def StepOut.state : StepOut → AgentState
  | .cont s => s
  | .ret _ s => s
  | .raise _ s => s


/-- The tool-ceiling invariant: the number of recorded tool executions
is at most the counter, and the counter is at most the ceiling. -/
def ToolInv (cfg : Config) (s : AgentState) : Prop :=
  countToolRuns s.trace ≤ s.toolCalls ∧ s.toolCalls ≤ cfg.maxToolCalls


/-- The behaviour of one step with respect to the final-language-retry
counter: a continuing state keeps the count equal to the counter and
strictly below the ceiling, and any state (including terminal ones)
keeps the count at most the ceiling. -/
def LangStepOk (L : Nat) (out : StepOut) : Prop :=
  (∀ s', out = .cont s' → countFinalRejected s'.trace = s'.langRetry ∧ s'.langRetry < L) ∧
  countFinalRejected out.state.trace ≤ L


/-- A model reply proposing a valid call of `current_error_services`. -/
def textToolCallValid : String :=
  "\x7b\"action\":\"tool_call\",\"tool\":\"current_error_services\",\"args\":\x7b\"cluster\":\"c1\"\x7d\x7d"


/-- A model reply proposing a call of a non-whitelisted tool. -/
def textToolBad : String :=
  "\x7b\"action\":\"tool_call\",\"tool\":\"nope\",\"args\":\x7b\"cluster\":\"c\"\x7d\x7d"


/-- A model reply whose `final` envelope carries a CJK dict key. -/
def textFinalCjkKey : String :=
  "\x7b\"action\":\"final\",\"错\":\"x\"\x7d"


/-- A model reply whose tool call passes `window_minutes: null`. -/
def textNullWindow : String :=
  "\x7b\"action\":\"tool_call\",\"tool\":\"current_error_services\",\"args\":\x7b\"cluster\":\"c1\",\"window_minutes\":null\x7d\x7d"


/-- A stub for the two analysis tools: always succeeds with a fixed
well-formed result. -/
def toolStub : String → JValue → Except PyErr JValue := fun _ _ =>
  .ok (.jobj [("summary", .jstr "ok"), ("window", .jstr "w"), ("services", .jarr [])])


/-- The loop context induced by the constant bad-tool stream on the
hint-free question `"질문"`. -/
def ctxBadTool : Ctx where
  cfg := defaultConfig
  hints := hintsFromQuestion "질문"
  stream := fun _ => textToolBad
  tools := toolStub


/-- The loop context induced by the constant valid-tool stream on the
hint-free question `"질문"`. -/
def ctxValidTool : Ctx where
  cfg := defaultConfig
  hints := hintsFromQuestion "질문"
  stream := fun _ => textToolCallValid
  tools := toolStub


/-- A loop state whose executed-tool-call counter sits at the default
ceiling. -/
def stateAtCeiling : AgentState where
  messages := []
  toolCalls := 2
  langRetry := 0
  trace := []
  llmCalls := 0


/-- The check that validation's hard cluster requirement passes: the
(backfilled) args carry a cluster that is a string and non-blank after
stripping. -/
def clusterValid (fs : List (String × JValue)) : Bool :=
  match getField fs "cluster" with
  | some (.jstr s) => !(pyStrip s == "")
  | _ => false


/-- A model reply proposing `current_error_services` with empty args. -/
def textToolCallNoCluster : String :=
  "\x7b\"action\":\"tool_call\",\"tool\":\"current_error_services\",\"args\":\x7b\x7d\x7d"


/-- The loop context induced by the empty-args stream on the hint-free
question `"질문"`. -/
def ctxNoCluster : Ctx where
  cfg := defaultConfig
  hints := hintsFromQuestion "질문"
  stream := fun _ => textToolCallNoCluster
  tools := toolStub


/-- The args of a model-proposed `increasing_error_services` call with
`min_delta` above the upper clamp bound and an out-of-range ratio. -/
def incrCallArgs : List (String × JValue) :=
  [("cluster", JValue.jstr "c"), ("min_delta", JValue.jint 5000000),
    ("min_ratio", JValue.jint 250)]


/-- The call carrying `incrCallArgs`. -/
def incrCall : List (String × JValue) :=
  [("action", JValue.jstr "tool_call"), ("tool", JValue.jstr "increasing_error_services"),
    ("args", JValue.jobj incrCallArgs)]


/-- The normalized args produced by validation for `incrCall`. -/
def incrCallNormArgs : List (String × JValue) :=
  [("cluster", JValue.jstr "c"), ("min_delta", JValue.jint 999999),
    ("min_ratio", JValue.jfloat 100), ("status", JValue.jstr "error"),
    ("namespace", JValue.jnull), ("window_minutes", JValue.jint 15),
    ("limit", JValue.jint 10)]


/-- The normalized call produced by validation for `incrCall`. -/
def incrCallNorm : List (String × JValue) :=
  [("action", JValue.jstr "tool_call"), ("tool", JValue.jstr "increasing_error_services"),
    ("args", JValue.jobj incrCallNormArgs)]


/-- Induction over `JValue` with inductive hypotheses for every element
of a nested list (the structural recursor of the nested inductive,
packaged for `induction ... using`). -/
theorem JValue.inductionOn (P : JValue → Prop)
    (hnull : P .jnull) (hbool : ∀ b, P (.jbool b)) (hint : ∀ n, P (.jint n))
    (hfloat : ∀ q, P (.jfloat q)) (hstr : ∀ s, P (.jstr s))
    (harr : ∀ items, (∀ x ∈ items, P x) → P (.jarr items))
    (hobj : ∀ fields, (∀ kv ∈ fields, P kv.2) → P (.jobj fields)) :
    ∀ v, P v := fun v =>
  match v with
  | .jnull => hnull
  | .jbool b => hbool b
  | .jint n => hint n
  | .jfloat q => hfloat q
  | .jstr s => hstr s
  | .jarr items => harr items (fun x hx =>
      have : sizeOf x < 1 + sizeOf items := by
        have h1 := List.sizeOf_lt_of_mem hx
        omega
      JValue.inductionOn P hnull hbool hint hfloat hstr harr hobj x)
  | .jobj fields => hobj fields (fun kv hkv =>
      have : sizeOf kv.2 < 1 + sizeOf fields := by
        have h1 := List.sizeOf_lt_of_mem hkv
        have h2 : sizeOf kv.2 < sizeOf kv := by
          obtain ⟨a, b⟩ := kv
          simp only [Prod.mk.sizeOf_spec]
          omega
        omega
      JValue.inductionOn P hnull hbool hint hfloat hstr harr hobj kv.2)
termination_by v => sizeOf v


theorem getField_setField_self (fs : List (String × JValue)) (k : String) (v : JValue) :
    getField (setField fs k v) k = some v := by
  induction fs with
  | nil => simp [setField, getField]
  | cons kv rest ih =>
    obtain ⟨k', v'⟩ := kv
    by_cases h : k' = k
    · simp [setField, getField, h]
    · simp [setField, getField, h, ih]


theorem getField_setField_ne (fs : List (String × JValue)) (k k' : String) (v : JValue)
    (h : k' ≠ k) : getField (setField fs k v) k' = getField fs k' := by
  induction fs with
  | nil => simp [setField, getField, Ne.symm h]
  | cons kv rest ih =>
    obtain ⟨k0, v0⟩ := kv
    by_cases h0 : k0 = k
    · subst h0
      simp [setField, getField, Ne.symm h]
    · by_cases h1 : k0 = k'
      · subst h1
        simp [setField, getField, h0]
      · simp [setField, getField, h0, h1, ih]


theorem countToolRuns_append (a b : List TraceEntry) :
    countToolRuns (a ++ b) = countToolRuns a + countToolRuns b := by
  simp [countToolRuns, List.countP_append]


theorem countFinalRejected_append (a b : List TraceEntry) :
    countFinalRejected (a ++ b) = countFinalRejected a + countFinalRejected b := by
  simp [countFinalRejected, List.countP_append]


theorem rawRetryAux_preserves (ctx : Ctx) :
    ∀ (b d : Nat) (t : String) (s : AgentState),
      (rawRetryAux ctx b d t s).2.toolCalls = s.toolCalls ∧
      (rawRetryAux ctx b d t s).2.langRetry = s.langRetry ∧
      countToolRuns (rawRetryAux ctx b d t s).2.trace = countToolRuns s.trace ∧
      countFinalRejected (rawRetryAux ctx b d t s).2.trace = countFinalRejected s.trace := by
  intro b
  induction b with
  | zero => intro d t s; exact ⟨rfl, rfl, rfl, rfl⟩
  | succ b ih =>
    intro d t s
    by_cases h : contains_cjk t
    · rw [rawRetryAux, if_pos h]
      refine ⟨?_, ?_, ?_, ?_⟩
      · rw [(ih _ _ _).1]
      · rw [(ih _ _ _).2.1]
      · rw [(ih _ _ _).2.2.1]
        simp [countToolRuns, List.countP_append, isToolRunEntry]
      · rw [(ih _ _ _).2.2.2]
        simp [countFinalRejected, List.countP_append, isFinalRejectedEntry]
    · simp [rawRetryAux, h]


theorem rawRetryAux_clean (ctx : Ctx) (b d : Nat) (t : String) (s : AgentState)
    (h : contains_cjk t = false) : rawRetryAux ctx b d t s = (t, s) := by
  cases b with
  | zero => rfl
  | succ b => simp [rawRetryAux, h]


theorem handleFinal_toolInv (ctx : Ctx) (s : AgentState) (obj : List (String × JValue))
    (h : ToolInv ctx.cfg s) : ToolInv ctx.cfg (handleFinal ctx s obj).state := by
  have h1 : List.countP isToolRunEntry s.trace ≤ s.toolCalls := h.1
  have h2 : s.toolCalls ≤ ctx.cfg.maxToolCalls := h.2
  simp only [handleFinal]
  split
  · split <;>
      (simp [StepOut.state, ToolInv, countToolRuns, List.countP_append, List.countP_cons,
        isToolRunEntry]
       all_goals omega)
  · simp [StepOut.state, ToolInv, countToolRuns, List.countP_append, List.countP_cons,
      isToolRunEntry]
    all_goals omega


theorem handleToolCall_toolInv (ctx : Ctx) (s : AgentState) (obj : List (String × JValue))
    (h : ToolInv ctx.cfg s) : ToolInv ctx.cfg (handleToolCall ctx s obj).state := by
  have h1 : List.countP isToolRunEntry s.trace ≤ s.toolCalls := h.1
  have h2 : s.toolCalls ≤ ctx.cfg.maxToolCalls := h.2
  simp only [handleToolCall]
  split
  · simp [StepOut.state, ToolInv, countToolRuns, List.countP_append, List.countP_cons,
      isToolRunEntry]
    all_goals omega
  · rename_i hlt
    have hlt' : s.toolCalls < ctx.cfg.maxToolCalls := Nat.not_le.1 hlt
    split
    all_goals try
      (simp [StepOut.state, ToolInv, countToolRuns, List.countP_append, List.countP_cons,
        isToolRunEntry]
       all_goals omega)
    split
    all_goals try
      (simp [StepOut.state, ToolInv, countToolRuns, List.countP_append, List.countP_cons,
        isToolRunEntry]
       all_goals omega)
    split
    all_goals try
      (simp [StepOut.state, ToolInv, countToolRuns, List.countP_append, List.countP_cons,
        isToolRunEntry]
       all_goals omega)
    split
    all_goals
      (simp [StepOut.state, ToolInv, countToolRuns, List.countP_append, List.countP_cons,
        isToolRunEntry]
       all_goals omega)


theorem dispatchStep_toolInv (ctx : Ctx) (s : AgentState) (text : String)
    (h : ToolInv ctx.cfg s) : ToolInv ctx.cfg (dispatchStep ctx s text).state := by
  have h1 : List.countP isToolRunEntry s.trace ≤ s.toolCalls := h.1
  have h2 : s.toolCalls ≤ ctx.cfg.maxToolCalls := h.2
  simp only [dispatchStep]
  split
  · simp [StepOut.state, ToolInv, countToolRuns, List.countP_append, List.countP_cons,
      isToolRunEntry]
    all_goals omega
  · split
    · simp [StepOut.state, ToolInv, countToolRuns, List.countP_append, List.countP_cons,
        isToolRunEntry]
      all_goals omega
    · split
      · exact handleFinal_toolInv ctx s _ h
      · exact handleToolCall_toolInv ctx s _ h
      · simp [StepOut.state, ToolInv, countToolRuns, List.countP_append, List.countP_cons,
          isToolRunEntry]
        all_goals omega


theorem loopStep_toolInv (ctx : Ctx) (s : AgentState)
    (h : ToolInv ctx.cfg s) : ToolInv ctx.cfg (loopStep ctx s).state := by
  unfold loopStep
  apply dispatchStep_toolInv
  obtain ⟨hp1, hp2, hp3, hp4⟩ :=
    rawRetryAux_preserves ctx 2 0 (ctx.stream s.llmCalls) { s with llmCalls := s.llmCalls + 1 }
  exact ⟨by rw [hp3, hp1]; exact h.1, by rw [hp1]; exact h.2⟩


theorem handleFinal_langInv (ctx : Ctx) (s : AgentState) (obj : List (String × JValue))
    (h1 : countFinalRejected s.trace = s.langRetry) (h2 : s.langRetry < ctx.cfg.maxLangRetry) :
    LangStepOk ctx.cfg.maxLangRetry (handleFinal ctx s obj) := by
  have h1' : List.countP isFinalRejectedEntry s.trace = s.langRetry := h1
  simp only [handleFinal]
  split
  · split
    · constructor
      · intro s' hs
        exact StepOut.noConfusion hs
      · simp [StepOut.state, countFinalRejected, List.countP_append, List.countP_cons,
          isFinalRejectedEntry]
        omega
    · constructor
      · intro s' hs
        cases hs
        simp [countFinalRejected, List.countP_append, List.countP_cons, isFinalRejectedEntry]
        all_goals omega
      · simp [StepOut.state, countFinalRejected, List.countP_append, List.countP_cons,
          isFinalRejectedEntry]
        all_goals omega
  · constructor
    · intro s' hs
      exact StepOut.noConfusion hs
    · simp [StepOut.state, countFinalRejected, List.countP_append, List.countP_cons,
        isFinalRejectedEntry]
      all_goals omega


theorem handleToolCall_lang_preserved (ctx : Ctx) (s : AgentState)
    (obj : List (String × JValue)) :
    (handleToolCall ctx s obj).state.langRetry = s.langRetry ∧
    countFinalRejected (handleToolCall ctx s obj).state.trace = countFinalRejected s.trace := by
  simp only [handleToolCall]
  split
  · simp [StepOut.state, countFinalRejected, List.countP_append, List.countP_cons,
      isFinalRejectedEntry]
  · split
    · simp [StepOut.state]
    · split
      · simp [StepOut.state, countFinalRejected, List.countP_append, List.countP_cons,
          isFinalRejectedEntry]
      · simp [StepOut.state]
      · split
        · simp [StepOut.state]
        · split
          · simp [StepOut.state]
          · simp [StepOut.state, countFinalRejected, List.countP_append, List.countP_cons,
              isFinalRejectedEntry]


theorem handleToolCall_langInv (ctx : Ctx) (s : AgentState) (obj : List (String × JValue))
    (h1 : countFinalRejected s.trace = s.langRetry) (h2 : s.langRetry < ctx.cfg.maxLangRetry) :
    LangStepOk ctx.cfg.maxLangRetry (handleToolCall ctx s obj) := by
  obtain ⟨hp1, hp2⟩ := handleToolCall_lang_preserved ctx s obj
  constructor
  · intro s' hs
    have hstate : (handleToolCall ctx s obj).state = s' := by rw [hs, StepOut.state]
    rw [hstate] at hp1 hp2
    exact ⟨by rw [hp2, h1, hp1], by rw [hp1]; exact h2⟩
  · rw [hp2, h1]
    exact Nat.le_of_lt h2


theorem dispatchStep_langInv (ctx : Ctx) (s : AgentState) (text : String)
    (h1 : countFinalRejected s.trace = s.langRetry) (h2 : s.langRetry < ctx.cfg.maxLangRetry) :
    LangStepOk ctx.cfg.maxLangRetry (dispatchStep ctx s text) := by
  have h1' : List.countP isFinalRejectedEntry s.trace = s.langRetry := h1
  have terminalOk : ∀ (f : JValue) (tr : List TraceEntry),
      countFinalRejected tr = countFinalRejected s.trace →
      LangStepOk ctx.cfg.maxLangRetry (.ret f { s with trace := tr }) := by
    intro f tr htr
    constructor
    · intro s' hs
      exact StepOut.noConfusion hs
    · simpa [StepOut.state, htr, h1] using Nat.le_of_lt h2
  simp only [dispatchStep]
  split
  · apply terminalOk
    simp [countFinalRejected, List.countP_append, List.countP_cons, isFinalRejectedEntry]
  · split
    · apply terminalOk
      simp [countFinalRejected, List.countP_append, List.countP_cons, isFinalRejectedEntry]
    · split
      · exact handleFinal_langInv ctx s _ h1 h2
      · exact handleToolCall_langInv ctx s _ h1 h2
      · apply terminalOk
        simp [countFinalRejected, List.countP_append, List.countP_cons, isFinalRejectedEntry]


theorem loopStep_langInv (ctx : Ctx) (s : AgentState)
    (h1 : countFinalRejected s.trace = s.langRetry) (h2 : s.langRetry < ctx.cfg.maxLangRetry) :
    LangStepOk ctx.cfg.maxLangRetry (loopStep ctx s) := by
  unfold loopStep
  obtain ⟨hp1, hp2, hp3, hp4⟩ :=
    rawRetryAux_preserves ctx 2 0 (ctx.stream s.llmCalls) { s with llmCalls := s.llmCalls + 1 }
  exact dispatchStep_langInv ctx _ _ (by rw [hp4, hp2]; exact h1) (by rw [hp2]; exact h2)


theorem runLoop_langBound (ctx : Ctx) :
    ∀ (fuel : Nat) (s : AgentState),
      countFinalRejected s.trace = s.langRetry → s.langRetry < ctx.cfg.maxLangRetry →
      countFinalRejected (runLoop ctx fuel s).state.trace ≤ ctx.cfg.maxLangRetry := by
  intro fuel
  induction fuel with
  | zero =>
    intro s h1 h2
    simpa [runLoop, RunResult.state, h1] using Nat.le_of_lt h2
  | succ fuel ih =>
    intro s h1 h2
    have hstep := loopStep_langInv ctx s h1 h2
    unfold runLoop
    cases hls : loopStep ctx s with
    | cont s1 =>
      obtain ⟨hc1, hc2⟩ := hstep.1 s1 hls
      exact ih s1 hc1 hc2
    | ret f s1 =>
      have := hstep.2
      rwa [hls, StepOut.state] at this
    | raise e s1 =>
      have := hstep.2
      rwa [hls, StepOut.state] at this


theorem runLoop_toolInv (ctx : Ctx) :
    ∀ (fuel : Nat) (s : AgentState), ToolInv ctx.cfg s →
      ToolInv ctx.cfg (runLoop ctx fuel s).state := by
  intro fuel
  induction fuel with
  | zero => intro s h; exact h
  | succ fuel ih =>
    intro s h
    have hstep := loopStep_toolInv ctx s h
    unfold runLoop
    cases hls : loopStep ctx s with
    | cont s1 => exact ih s1 (by rwa [hls, StepOut.state] at hstep)
    | ret f s1 => rwa [hls, StepOut.state] at hstep
    | raise e s1 => rwa [hls, StepOut.state] at hstep


theorem loopStep_eq_dispatch (ctx : Ctx) (s : AgentState)
    (h : contains_cjk (ctx.stream s.llmCalls) = false) :
    loopStep ctx s =
      dispatchStep ctx { s with llmCalls := s.llmCalls + 1 } (ctx.stream s.llmCalls) := by
  simp [loopStep, rawRetryAux_clean ctx 2 0 _ _ h]


theorem dispatchStep_toolCall_eq (ctx : Ctx) (s : AgentState) (text : String)
    (obj : List (String × JValue))
    (hext : extract_first_json_object text.data = some obj)
    (hne : obj.isEmpty = false)
    (hact : getField obj "action" = some (.jstr "tool_call")) :
    dispatchStep ctx s text = handleToolCall ctx s obj := by
  simp [dispatchStep, hext, hne, hact]


theorem handleToolCall_limit_eq (ctx : Ctx) (s : AgentState) (obj : List (String × JValue))
    (h : ctx.cfg.maxToolCalls ≤ s.toolCalls) :
    handleToolCall ctx s obj = .cont { s with
      messages := s.messages ++ [⟨"assistant", jdump (.jobj obj)⟩, ⟨"user", LIMIT_REACHED_MSG⟩],
      trace := s.trace ++ [.toolCallRejected "limit_reached" obj] } := by
  simp [handleToolCall, h]


theorem handleToolCall_invalid_eq (ctx : Ctx) (s : AgentState)
    (obj obj1 : List (String × JValue)) (msg : String) (objE : List (String × JValue))
    (hlt : s.toolCalls < ctx.cfg.maxToolCalls)
    (hh : applyHints ctx.hints obj = .ok obj1)
    (hv : validate_and_normalize_call ctx.cfg obj1 = .error (.valueError msg, objE)) :
    handleToolCall ctx s obj = .cont { s with
      messages := s.messages ++ [⟨"assistant", jdump (.jobj objE)⟩, ⟨"user", invalidCallMsg msg⟩],
      trace := s.trace ++ [.toolCallInvalid msg objE] } := by
  simp [handleToolCall, Nat.not_le.2 hlt, hh, hv]


/-- Claim C2: in every run of `run_agent`, at every point, the number
of executed external tool invocations never exceeds the configured
ceiling `MAX_TOOL_CALLS` (the counter stays at most the ceiling and the
recorded executions stay at most the counter, for every fuel, i.e. at
every prefix of the execution); and once the counter has reached the
ceiling, a further `tool_call` envelope is rejected: the step continues
the loop, appends exactly one `tool_call_rejected` (`limit_reached`)
trace entry and a corrective instruction demanding a final answer, and
leaves the counter unchanged, with no tool executed. -/
theorem tool_call_ceiling_enforced :
    (∀ (cfg : Config) (stream : Nat → String) (tools : String → JValue → Except PyErr JValue)
        (question : String) (fuel : Nat),
        (run_agent cfg stream tools question fuel).state.toolCalls ≤ cfg.maxToolCalls ∧
        countToolRuns (run_agent cfg stream tools question fuel).state.trace ≤
          (run_agent cfg stream tools question fuel).state.toolCalls) ∧
    (∀ (ctx : Ctx) (s : AgentState) (text : String) (obj : List (String × JValue)),
        extract_first_json_object text.data = some obj → obj.isEmpty = false →
        getField obj "action" = some (.jstr "tool_call") →
        ctx.cfg.maxToolCalls ≤ s.toolCalls →
        dispatchStep ctx s text = .cont { s with
          messages := s.messages ++
            [⟨"assistant", jdump (.jobj obj)⟩, ⟨"user", LIMIT_REACHED_MSG⟩],
          trace := s.trace ++ [.toolCallRejected "limit_reached" obj] }) := by
  constructor
  · intro cfg stream tools question fuel
    have hinit : ToolInv cfg (initAgentState question) := ⟨Nat.le_refl 0, Nat.zero_le _⟩
    have h := runLoop_toolInv ⟨cfg, hintsFromQuestion question, stream, tools⟩ fuel
      (initAgentState question) hinit
    exact ⟨h.2, h.1⟩
  · intro ctx s text obj hext hne hact hlim
    rw [dispatchStep_toolCall_eq ctx s text obj hext hne hact,
      handleToolCall_limit_eq ctx s obj hlim]


/-- Witness for C2 at concrete inputs: a run with the valid-tool stream
under the default ceiling, and the rejection step from a state whose
counter sits at the ceiling. -/
theorem tool_call_ceiling_enforced_witness :
    ((run_agent defaultConfig (fun _ => textToolCallValid) toolStub "질문" 4).state.toolCalls ≤
        defaultConfig.maxToolCalls ∧
      countToolRuns
          (run_agent defaultConfig (fun _ => textToolCallValid) toolStub "질문" 4).state.trace ≤
        (run_agent defaultConfig (fun _ => textToolCallValid) toolStub "질문" 4).state.toolCalls) ∧
    dispatchStep ctxValidTool stateAtCeiling textToolCallValid = .cont { stateAtCeiling with
      messages := stateAtCeiling.messages ++
        [⟨"assistant", jdump (.jobj [("action", .jstr "tool_call"),
            ("tool", .jstr "current_error_services"),
            ("args", .jobj [("cluster", .jstr "c1")])])⟩,
          ⟨"user", LIMIT_REACHED_MSG⟩],
      trace := stateAtCeiling.trace ++ [.toolCallRejected "limit_reached"
        [("action", .jstr "tool_call"), ("tool", .jstr "current_error_services"),
          ("args", .jobj [("cluster", .jstr "c1")])]] } :=
  ⟨tool_call_ceiling_enforced.1 defaultConfig (fun _ => textToolCallValid) toolStub "질문" 4,
    tool_call_ceiling_enforced.2 ctxValidTool stateAtCeiling textToolCallValid
      [("action", .jstr "tool_call"), ("tool", .jstr "current_error_services"),
        ("args", .jobj [("cluster", .jstr "c1")])]
      rfl rfl rfl (Nat.le_refl 2)⟩


/-- Claim C1 (amended): for every question and model behaviour the loop
performs at most `MAX_TOOL_CALLS` recorded external tool invocations
and at most `MAX_LANG_RETRY` final-stage language retries — but the
loop need not terminate: the rejected/invalid tool-call paths return to
awaiting the model without any counter gate (see the companion
counterexample). -/
theorem run_agent_retry_and_tool_ceilings (cfg : Config) (stream : Nat → String)
    (tools : String → JValue → Except PyErr JValue) (question : String) (fuel : Nat)
    (h : 1 ≤ cfg.maxLangRetry) :
    countToolRuns (run_agent cfg stream tools question fuel).state.trace ≤ cfg.maxToolCalls ∧
    countFinalRejected (run_agent cfg stream tools question fuel).state.trace ≤
      cfg.maxLangRetry := by
  constructor
  · have hinit : ToolInv cfg (initAgentState question) := ⟨Nat.le_refl 0, Nat.zero_le _⟩
    have htool := runLoop_toolInv ⟨cfg, hintsFromQuestion question, stream, tools⟩ fuel
      (initAgentState question) hinit
    exact Nat.le_trans htool.1 htool.2
  · exact runLoop_langBound ⟨cfg, hintsFromQuestion question, stream, tools⟩ fuel
      (initAgentState question) rfl h


/-- Witness for C1's bounds at a concrete run that exhausts the
language-retry ceiling. -/
theorem run_agent_retry_and_tool_ceilings_witness :
    countToolRuns
        (run_agent defaultConfig (fun _ => textFinalCjkKey) toolStub "질문" 3).state.trace ≤
      defaultConfig.maxToolCalls ∧
    countFinalRejected
        (run_agent defaultConfig (fun _ => textFinalCjkKey) toolStub "질문" 3).state.trace ≤
      defaultConfig.maxLangRetry :=
  run_agent_retry_and_tool_ceilings defaultConfig (fun _ => textFinalCjkKey) toolStub "질문" 3
    (by decide)


/-- Counterexample to C1 as stated: with the default configuration
there is a model behaviour (constantly proposing a non-whitelisted
tool) on which `run_agent` never terminates — no iteration budget makes
the run terminal, because the `tool_call_invalid` recovery path returns
to awaiting the model without any counter gate. -/
theorem run_agent_nontermination :
    ¬ (∀ (stream : Nat → String) (tools : String → JValue → Except PyErr JValue)
        (question : String),
        ∃ fuel, (run_agent defaultConfig stream tools question fuel).isTerminal = true) := by
  intro h
  obtain ⟨fuel, hterm⟩ := h (fun _ => textToolBad) toolStub "질문"
  have hstep : ∀ s : AgentState, ∃ s', loopStep ctxBadTool s = .cont s' := by
    intro s
    have hcjk : contains_cjk (ctxBadTool.stream s.llmCalls) = false := rfl
    rw [loopStep_eq_dispatch ctxBadTool s hcjk]
    have hext : extract_first_json_object (ctxBadTool.stream s.llmCalls).data =
        some [("action", .jstr "tool_call"), ("tool", .jstr "nope"),
          ("args", .jobj [("cluster", .jstr "c")])] := rfl
    rw [dispatchStep_toolCall_eq _ _ _ _ hext rfl rfl]
    by_cases hlim : ctxBadTool.cfg.maxToolCalls ≤
        ({ s with llmCalls := s.llmCalls + 1 } : AgentState).toolCalls
    · exact ⟨_, handleToolCall_limit_eq _ _ _ hlim⟩
    · exact ⟨_, handleToolCall_invalid_eq _ _ _
        [("action", .jstr "tool_call"), ("tool", .jstr "nope"),
          ("args", .jobj [("cluster", .jstr "c"), ("status", .jstr "error")])]
        "Tool not allowed: nope"
        [("action", .jstr "tool_call"), ("tool", .jstr "nope"),
          ("args", .jobj [("cluster", .jstr "c"), ("status", .jstr "error")])]
        (Nat.not_le.1 hlim) rfl rfl⟩
  have key : ∀ (n : Nat) (s : AgentState), (runLoop ctxBadTool n s).isTerminal = false := by
    intro n
    induction n with
    | zero => intro s; rfl
    | succ n ih =>
      intro s
      obtain ⟨s', hs'⟩ := hstep s
      simp only [runLoop, hs']
      exact ih s'
  have hrun : run_agent defaultConfig (fun _ => textToolBad) toolStub "질문" fuel =
      runLoop ctxBadTool fuel (initAgentState "질문") := rfl
  rw [hrun, key fuel (initAgentState "질문")] at hterm
  exact Bool.noConfusion hterm


/-- Claim C3 (code bug): a model-proposed tool call with
`window_minutes: null` drives `int(None)` inside
`validate_and_normalize_call`, raising `TypeError` — which the loop's
`except ValueError` does not catch, so the exception propagates to the
caller even though this is model misbehaviour (ill-typed tool-call
arguments).  The claim (and §7 of the spec, which files bad argument
types under internally-recovered validation failures) says no such
exception may reach the caller. -/
theorem null_window_minutes_raises_typeerror :
    (run_agent defaultConfig (fun _ => textNullWindow) toolStub "질문" 1).errValue =
      some (.typeError
        "int() argument must be a string, a bytes-like object or a real number, not 'NoneType'") :=
  rfl


/-- Claim C9: the deterministic hint extractors on the question
`"marios-stg-eks 클러스터 최근 30분 에러 서비스"` yield cluster
`marios-stg-eks`, a 30-minute window, status `error`, and no namespace
hint.  The extractors read only the question, so no model output can
influence them. -/
theorem scenario_a_deterministic_hints :
    extract_cluster_from_question "marios-stg-eks 클러스터 최근 30분 에러 서비스" =
      some "marios-stg-eks" ∧
    parse_window_minutes_ko "marios-stg-eks 클러스터 최근 30분 에러 서비스" = some 30 ∧
    choose_status_from_question "marios-stg-eks 클러스터 최근 30분 에러 서비스" = "error" ∧
    extract_namespace_from_question "marios-stg-eks 클러스터 최근 30분 에러 서비스" = none :=
  ⟨rfl, rfl, rfl, rfl⟩


theorem sanitizeList_leaf_all (p : String → Bool) :
    ∀ l : List JValue,
      (∀ x ∈ l, (leafStringValues (sanitizeWalk x)).all p = true) →
      (leafStringValuesList (sanitizeWalkList l)).all p = true := by
  intro l
  induction l with
  | nil => intro _; rfl
  | cons x xs ih =>
    intro h
    simp only [sanitizeWalkList, leafStringValuesList, List.all_append]
    rw [h x (by simp), ih (fun y hy => h y (by simp [hy]))]
    rfl


theorem sanitizeFields_leaf_all (p : String → Bool) :
    ∀ l : List (String × JValue),
      (∀ kv ∈ l, (leafStringValues (sanitizeWalk kv.2)).all p = true) →
      (leafStringValuesFields (sanitizeWalkFields l)).all p = true := by
  intro l
  induction l with
  | nil => intro _; rfl
  | cons kv xs ih =>
    intro h
    obtain ⟨k, v⟩ := kv
    simp only [sanitizeWalkFields, leafStringValuesFields, List.all_append]
    rw [h ⟨k, v⟩ (by simp), ih (fun y hy => h y (by simp [hy]))]
    rfl


/-- Claim C5 (amended): after the sanitizing fallback, every leaf
string value of the returned envelope is free of CJK characters, and
being a total function the sanitize-and-return path cannot raise.
(Dict keys are not walked, so a CJK key survives — see the companion
counterexample.) -/
theorem sanitize_output_value_strings_cjk_free :
    ∀ obj : JValue,
      ((leafStringValues (sanitize_korean_only obj)).all fun s => !contains_cjk s) = true := by
  intro obj
  show ((leafStringValues (sanitizeWalk obj)).all fun s => !contains_cjk s) = true
  induction obj using JValue.inductionOn with
  | hnull => rfl
  | hbool b => rfl
  | hint n => rfl
  | hfloat q => rfl
  | hstr s =>
    by_cases h : contains_cjk s
    · have hFB : contains_cjk koreanFallbackSentence = false := rfl
      simp [sanitizeWalk, leafStringValues, h, hFB]
    · simp [sanitizeWalk, leafStringValues, h]
  | harr items ih =>
    show (leafStringValuesList (sanitizeWalkList items)).all _ = true
    exact sanitizeList_leaf_all _ items ih
  | hobj fields ih =>
    show (leafStringValuesFields (sanitizeWalkFields fields)).all _ = true
    exact sanitizeFields_leaf_all _ fields ih


/-- Counterexample to C5 as stated: with the default configuration and
a model that keeps returning `final` envelopes whose dict key `错` is a
CJK character, the language-retry ceiling is exhausted, the sanitizing
fallback fires (one `final_sanitized` trace entry), and the envelope
returned to the caller still contains a code point in
U+4E00..U+9FFF — the walk replaces only string values, never keys. -/
theorem sanitized_envelope_retains_cjk_key :
    (run_agent defaultConfig (fun _ => textFinalCjkKey) toolStub "질문" 3).finalValue =
      some (.jobj [("action", .jstr "final"), ("错", .jstr "x")]) ∧
    ((run_agent defaultConfig (fun _ => textFinalCjkKey) toolStub "질문" 3).state.trace.countP
      isFinalSanitizedEntry) = 1 ∧
    jAnyCJKStr (.jobj [("action", .jstr "final"), ("错", .jstr "x")]) = true :=
  ⟨rfl, rfl, rfl⟩


theorem sanitizeList_leaf_map (f : String → String) :
    ∀ l : List JValue,
      (∀ x ∈ l, leafStringValues (sanitizeWalk x) = (leafStringValues x).map f) →
      leafStringValuesList (sanitizeWalkList l) = (leafStringValuesList l).map f := by
  intro l
  induction l with
  | nil => intro _; rfl
  | cons x xs ih =>
    intro h
    simp only [sanitizeWalkList, leafStringValuesList, List.map_append]
    rw [h x (by simp), ih (fun y hy => h y (by simp [hy]))]


theorem sanitizeFields_leaf_map (f : String → String) :
    ∀ l : List (String × JValue),
      (∀ kv ∈ l, leafStringValues (sanitizeWalk kv.2) = (leafStringValues kv.2).map f) →
      leafStringValuesFields (sanitizeWalkFields l) = (leafStringValuesFields l).map f := by
  intro l
  induction l with
  | nil => intro _; rfl
  | cons kv xs ih =>
    intro h
    obtain ⟨k, v⟩ := kv
    simp only [sanitizeWalkFields, leafStringValuesFields, List.map_append]
    rw [h ⟨k, v⟩ (by simp), ih (fun y hy => h y (by simp [hy]))]


theorem sanitizeList_mask (l : List JValue)
    (h : ∀ x ∈ l, maskStringValues (sanitizeWalk x) = maskStringValues x) :
    maskStringValuesList (sanitizeWalkList l) = maskStringValuesList l := by
  induction l with
  | nil => rfl
  | cons x xs ih =>
    simp only [sanitizeWalkList, maskStringValuesList]
    rw [h x (by simp), ih (fun y hy => h y (by simp [hy]))]


theorem sanitizeFields_mask (l : List (String × JValue))
    (h : ∀ kv ∈ l, maskStringValues (sanitizeWalk kv.2) = maskStringValues kv.2) :
    maskStringValuesFields (sanitizeWalkFields l) = maskStringValuesFields l := by
  induction l with
  | nil => rfl
  | cons kv xs ih =>
    obtain ⟨k, v⟩ := kv
    simp only [sanitizeWalkFields, maskStringValuesFields]
    rw [h ⟨k, v⟩ (by simp), ih (fun y hy => h y (by simp [hy]))]


/-- Claim C6: a string is non-compliant iff it contains a code point in
U+4E00..U+9FFF; and `sanitize_korean_only` maps the list of leaf string
values pointwise — each non-compliant one to the fixed fallback
sentence, each compliant one to itself — while the string-erased
skeleton (dict/list shape, keys, and non-string atoms) is unchanged. -/
theorem contains_cjk_and_sanitize_exact :
    (∀ s : String, contains_cjk s = true ↔
      ∃ c ∈ s.data, 0x4e00 ≤ c.toNat ∧ c.toNat ≤ 0x9fff) ∧
    (∀ v : JValue, leafStringValues (sanitize_korean_only v) =
      (leafStringValues v).map fun s => if contains_cjk s then koreanFallbackSentence else s) ∧
    (∀ v : JValue, maskStringValues (sanitize_korean_only v) = maskStringValues v) := by
  refine ⟨?_, ?_, ?_⟩
  · intro s
    simp [contains_cjk, List.any_eq_true, isCJKChar, Bool.and_eq_true, decide_eq_true_eq]
  · intro v
    show leafStringValues (sanitizeWalk v) = _
    induction v using JValue.inductionOn with
    | hnull => rfl
    | hbool b => rfl
    | hint n => rfl
    | hfloat q => rfl
    | hstr s => simp [sanitizeWalk, leafStringValues]
    | harr items ih =>
      show leafStringValuesList (sanitizeWalkList items) = _
      exact sanitizeList_leaf_map _ items ih
    | hobj fields ih =>
      show leafStringValuesFields (sanitizeWalkFields fields) = _
      exact sanitizeFields_leaf_map _ fields ih
  · intro v
    show maskStringValues (sanitizeWalk v) = _
    induction v using JValue.inductionOn with
    | hnull => rfl
    | hbool b => rfl
    | hint n => rfl
    | hfloat q => rfl
    | hstr s => rfl
    | harr items ih =>
      show JValue.jarr (maskStringValuesList (sanitizeWalkList items)) = _
      rw [sanitizeList_mask items ih]
      rfl
    | hobj fields ih =>
      show JValue.jobj (maskStringValuesFields (sanitizeWalkFields fields)) = _
      rw [sanitizeFields_mask fields ih]
      rfl


theorem scanObject_append :
    ∀ (cs : List Char) (d : Int) (n : Nat), scanObject cs d = some n →
      ∀ tail : List Char, scanObject (cs ++ tail) d = some n := by
  intro cs
  induction cs with
  | nil =>
    intro d n h
    exact absurd h (by simp [scanObject])
  | cons c cs ih =>
    intro d n h tail
    rw [List.cons_append]
    simp only [scanObject] at h ⊢
    set d' := if c = '{' then d + 1 else if c = '}' then d - 1 else d with hd'
    by_cases hcond : c = '}' ∧ d' = 0
    · rw [if_pos hcond] at h ⊢
      exact h
    · rw [if_neg hcond] at h ⊢
      cases hrec : scanObject cs d' with
      | none => rw [hrec] at h; exact absurd h (by simp)
      | some m =>
        rw [hrec] at h
        rw [ih _ _ hrec tail]
        exact h


theorem dropUntilBrace_append (pre rest : List Char) (hpre : '{' ∉ pre) :
    dropUntilBrace (pre ++ rest) = dropUntilBrace rest := by
  induction pre with
  | nil => rfl
  | cons c cs ih =>
    have hc : ¬(c = '{') := fun hc => hpre (by simp [hc])
    rw [List.cons_append, dropUntilBrace, if_neg hc]
    exact ih (fun hmem => hpre (by simp [hmem]))


theorem dropUntilBrace_eq_none (cs : List Char) (h : '{' ∉ cs) :
    dropUntilBrace cs = none := by
  induction cs with
  | nil => rfl
  | cons c rest ih =>
    have hc : ¬(c = '{') := fun hc => h (by simp [hc])
    rw [dropUntilBrace, if_neg hc]
    exact ih (fun hmem => h (by simp [hmem]))


/-- Claim C7 (amended): when the prefix contains no `{` at all and
`balanced_json` is a brace-balanced region starting at a `{` (the depth
counter first returns to zero exactly at its last character),
extraction on `prefix ++ balanced_json ++ suffix` returns exactly
`json.loads(balanced_json)` (as an object), for any suffix; a text
containing no `{` extracts to none; and a text whose braces never
balance — the depth scan from the first `{` falls through without the
depth returning to zero — also extracts to none.  A prefix merely free
of unmatched braces is not enough — see the companion counterexample. -/
theorem extract_first_balanced_object :
    (∀ pre bj suf : List Char, '{' ∉ pre → bj.head? = some '{' →
      scanObject bj 0 = some bj.length →
      extract_first_json_object (pre ++ bj ++ suf) =
        asObjFields (jsonLoads (String.mk bj))) ∧
    (∀ cs : List Char, '{' ∉ cs → extract_first_json_object cs = none) ∧
    (∀ cs rest : List Char, dropUntilBrace cs = some rest →
      scanObject rest 0 = none → extract_first_json_object cs = none) := by
  refine ⟨?_, ?_, ?_⟩
  · intro pre bj suf hpre hhead hscan
    obtain ⟨t, rfl⟩ : ∃ t, bj = '{' :: t := by
      cases bj with
      | nil => exact absurd hhead (by simp)
      | cons c cs =>
        refine ⟨cs, ?_⟩
        simp only [List.head?] at hhead
        exact congrArg (· :: cs) (Option.some.inj hhead)
    rw [extract_first_json_object, List.append_assoc,
      dropUntilBrace_append pre _ hpre]
    have hdrop : dropUntilBrace ('{' :: (t ++ suf)) = some ('{' :: (t ++ suf)) := by
      rw [dropUntilBrace, if_pos rfl]
    have hscan2 : scanObject ('{' :: (t ++ suf)) 0 = some ('{' :: t).length := by
      have h2 := scanObject_append ('{' :: t) 0 ('{' :: t).length hscan suf
      rwa [List.cons_append] at h2
    have htake : ('{' :: (t ++ suf)).take ('{' :: t).length = '{' :: t := by
      simp only [List.length_cons, List.take_succ_cons, List.take_left]
    rw [List.cons_append, hdrop]
    simp only [hscan2, htake]
  · intro cs h
    rw [extract_first_json_object, dropUntilBrace_eq_none cs h]
  · intro cs rest h1 h2
    rw [extract_first_json_object]
    simp only [h1, h2]


/-- Witness for C7 at concrete inputs: commentary around one balanced
object, a brace-free text, and a text that opens an object but never
closes it. -/
theorem extract_first_balanced_object_witness :
    extract_first_json_object ("ab".data ++ "\x7b\"k\":2\x7d".data ++ "cd".data) =
      asObjFields (jsonLoads (String.mk "\x7b\"k\":2\x7d".data)) ∧
    asObjFields (jsonLoads (String.mk "\x7b\"k\":2\x7d".data)) = some [("k", .jint 2)] ∧
    extract_first_json_object "no object here".data = none ∧
    extract_first_json_object "see \x7b\"a\": 1".data = none :=
  ⟨extract_first_balanced_object.1 "ab".data "\x7b\"k\":2\x7d".data "cd".data
      (by decide) rfl rfl,
    rfl,
    extract_first_balanced_object.2.1 "no object here".data (by decide),
    extract_first_balanced_object.2.2 "see \x7b\"a\": 1".data "\x7b\"a\": 1".data
      rfl rfl⟩


theorem clamp_int_bounds (v lo hi : Int) (h : lo ≤ hi) :
    lo ≤ clamp_int v lo hi ∧ clamp_int v lo hi ≤ hi :=
  ⟨le_max_left _ _, max_le h (min_le_left _ _)⟩


theorem clamp_float_bounds (v lo hi : Rat) (h : lo ≤ hi) :
    lo ≤ clamp_float v lo hi ∧ clamp_float v lo hi ≤ hi :=
  ⟨le_max_left _ _, max_le h (min_le_left _ _)⟩


theorem clamp_int_high (v lo hi : Int) (hlo : lo ≤ hi) (hv : hi < v) :
    clamp_int v lo hi = hi := by
  unfold clamp_int
  rw [min_eq_left (le_of_lt hv), max_eq_right hlo]


theorem validateArgs_ok_incr (cfg : Config) (call : List (String × JValue)) (aliased : Bool)
    (fs call' : List (String × JValue))
    (h : validateArgs cfg call aliased "increasing_error_services" fs = .ok call') :
    ∃ fsOut, call' = setField call "args" (.jobj fsOut) ∧
      (∃ d : Int, pyInt ((getField fs "min_delta").getD (.jint 10)) = .ok d ∧
        getField fsOut "min_delta" = some (.jint (clamp_int d 1 999999))) ∧
      (∃ r : Rat, getField fsOut "min_ratio" = some (.jfloat (clamp_float r 1 100))) := by
  simp only [validateArgs] at h
  iterate 40 (all_goals try (first
    | exact Except.noConfusion h
    | split at h))
  all_goals try (exact absurd trivial ‹¬True›)
  all_goals (
    rename_i x1 c hc hne x2 st hst nsv fs3 hns xw w hw xl l hl ht xd d hd xr r hr
    split at hns
    all_goals try (exact Except.noConfusion hns)
    all_goals (
      injection hns with hns2
      subst hns2
      injection h with h2
      subst h2
      refine ⟨_, rfl, ⟨d, ?_, ?_⟩, ⟨r, ?_⟩⟩
      · simp [getField_setField_ne] at hd
        exact hd
      · simp [getField_setField_ne, getField_setField_self]
      · simp [getField_setField_ne, getField_setField_self]))


/-- Claim C10: for `increasing_error_services`, successful
normalization always leaves `min_delta` in the closed interval
`[1, 999999]` — in particular every integer-coercible `min_delta` above
999999 is silently reduced to 999999 — and leaves `min_ratio` in
`[1.0, 100.0]`. -/
theorem min_delta_min_ratio_clamping (cfg : Config)
    (call call' fs fs' : List (String × JValue))
    (htool : getField call "tool" = some (.jstr "increasing_error_services"))
    (hargs : getField call "args" = some (.jobj fs))
    (hok : validate_and_normalize_call cfg call = .ok call')
    (hargs' : getField call' "args" = some (.jobj fs')) :
    (∃ d : Int, getField fs' "min_delta" = some (.jint d) ∧ 1 ≤ d ∧ d ≤ 999999 ∧
      (∀ n : Int, pyInt ((getField fs "min_delta").getD (.jint 10)) = .ok n → 999999 < n →
        d = 999999)) ∧
    (∃ r : Rat, getField fs' "min_ratio" = some (.jfloat r) ∧ 1 ≤ r ∧ r ≤ 100) := by
  simp only [validate_and_normalize_call, htool, hargs, whitelistedTool] at hok
  split at hok
  all_goals try (exact Except.noConfusion hok)
  rename_i heqact
  simp only [Option.getD_some] at hok
  have hok2 : validateArgs cfg call (pyTruthy (.jobj fs)) "increasing_error_services" fs =
      .ok call' := by
    by_cases hfs : fs.isEmpty
    · have : fs = [] := List.isEmpty_iff.1 hfs
      subst this
      simpa [pyTruthy] using hok
    · simpa [pyTruthy, hfs] using hok
  obtain ⟨fsOut, rfl, ⟨d, hd, hdOut⟩, ⟨r, hrOut⟩⟩ :=
    validateArgs_ok_incr cfg call _ fs call' hok2
  rw [getField_setField_self] at hargs'
  have hfs' : fsOut = fs' := by
    injection hargs' with h3
    injection h3
  subst hfs'
  constructor
  · refine ⟨clamp_int d 1 999999, hdOut, ?_, ?_, ?_⟩
    · exact (clamp_int_bounds d 1 999999 (by norm_num)).1
    · exact (clamp_int_bounds d 1 999999 (by norm_num)).2
    · intro n hn hgt
      rw [hd] at hn
      injection hn with h4
      rw [h4]
      exact clamp_int_high n 1 999999 (by norm_num) hgt
  · exact ⟨clamp_float r 1 100, hrOut,
      (clamp_float_bounds r 1 100 (by norm_num)).1,
      (clamp_float_bounds r 1 100 (by norm_num)).2⟩


/-- Counterexample to C7 as stated: the prefix `{}` contains no
unmatched braces, yet extraction on `{}` ++ `{"a":1}` returns the
parse of the prefix (the first balanced region), not the parse of
`balanced_json`. -/
theorem extract_picks_earlier_balanced_region :
    noUnmatchedBraces "\x7b\x7d".data = true ∧
    scanObject "\x7b\"a\":1\x7d".data 0 = some ("\x7b\"a\":1\x7d".data.length) ∧
    asObjFields (jsonLoads "\x7b\"a\":1\x7d") = some [("a", .jint 1)] ∧
    extract_first_json_object (("\x7b\x7d" ++ "\x7b\"a\":1\x7d") : String).data = some [] ∧
    some ([] : List (String × JValue)) ≠ some [("a", .jint 1)] :=
  ⟨rfl, rfl, rfl, rfl, by simp⟩


/-- Claim C4 (amended): the hint backfill fills cluster only when it
is missing, non-string, or blank; fills namespace only when it is
absent, null, empty, or the literal string `"null"`; fills status only
when absent or null (a blank status is not filled); but a nonzero
window hint unconditionally OVERWRITES `window_minutes`, even when the
model supplied an explicit value — the claim's never-override guarantee
fails for the window field (see the companion counterexample). -/
theorem hint_backfill_fill_or_preserve (hints : Hints) (obj : List (String × JValue))
    (fs obj' : List (String × JValue))
    (hargs : getField obj "args" = some (.jobj fs))
    (hok : applyHints hints obj = .ok obj') :
    ∃ fs', getField obj' "args" = some (.jobj fs') ∧
      (∀ s : String, getField fs "cluster" = some (.jstr s) → pyStrip s ≠ "" →
        getField fs' "cluster" = some (.jstr s)) ∧
      (truthyStr hints.cluster = true → clusterNeedsFill fs = true →
        getField fs' "cluster" = some (.jstr (hints.cluster.getD ""))) ∧
      (∀ s : String, getField fs "namespace" = some (.jstr s) → s ≠ "" → s ≠ "null" →
        getField fs' "namespace" = some (.jstr s)) ∧
      (truthyStr hints.ns = true → nsIsNullish fs = true →
        getField fs' "namespace" = some (.jstr (hints.ns.getD ""))) ∧
      (truthyWin hints.window = true →
        getField fs' "window_minutes" = some (.jint (hints.window.getD 0))) ∧
      (truthyWin hints.window = false →
        getField fs' "window_minutes" = getField fs "window_minutes") ∧
      (∀ v : JValue, getField fs "status" = some v → v ≠ .jnull →
        getField fs' "status" = some v) ∧
      (hints.status ≠ "" → statusIsNone fs = true →
        getField fs' "status" = some (.jstr hints.status)) := by
  by_cases hfs : fs = []
  · subst hfs
    simp only [applyHints, hargs, Option.isNone_some, Option.getD_some, if_false,
      Bool.false_eq_true, pyTruthy] at hok
    injection hok with h2
    subst h2
    refine ⟨_, getField_setField_self _ _ _, ?_, ?_, ?_, ?_, ?_, ?_, ?_, ?_⟩
    · intro s hs hne
      simp [getField] at hs
    · intro h1 h2
      split_ifs <;>
        simp_all [getField_setField_ne, getField_setField_self, clusterNeedsFill, nsIsNullish,
          statusIsNone, truthyStr, truthyWin]
    · intro s hs h1 h2
      simp [getField] at hs
    · intro h1 h2
      split_ifs <;>
        simp_all [getField_setField_ne, getField_setField_self, clusterNeedsFill, nsIsNullish,
          statusIsNone, truthyStr, truthyWin]
    · intro h1
      split_ifs <;>
        simp_all [getField_setField_ne, getField_setField_self, clusterNeedsFill, nsIsNullish,
          statusIsNone, truthyStr, truthyWin]
    · intro h1
      split_ifs <;>
        simp_all [getField_setField_ne, getField_setField_self, clusterNeedsFill, nsIsNullish,
          statusIsNone, truthyStr, truthyWin]
    · intro v hv hvn
      simp [getField] at hv
    · intro h1 h2
      split_ifs <;>
        simp_all [getField_setField_ne, getField_setField_self, clusterNeedsFill, nsIsNullish,
          statusIsNone, truthyStr, truthyWin]
  · have hfs' : fs.isEmpty = false := by
      cases fs with
      | nil => exact absurd rfl hfs
      | cons a l => rfl
    simp only [applyHints, hargs, Option.isNone_some, Option.getD_some, if_false,
      Bool.false_eq_true, pyTruthy, hfs'] at hok
    injection hok with h2
    subst h2
    refine ⟨_, getField_setField_self _ _ _, ?_, ?_, ?_, ?_, ?_, ?_, ?_, ?_⟩
    · intro s hs hne
      split_ifs <;>
        simp_all [getField_setField_ne, getField_setField_self, clusterNeedsFill, nsIsNullish,
          statusIsNone, truthyStr, truthyWin]
    · intro h1 h2
      split_ifs <;>
        simp_all [getField_setField_ne, getField_setField_self, clusterNeedsFill, nsIsNullish,
          statusIsNone, truthyStr, truthyWin]
    · intro s hs h1 h2
      split_ifs <;>
        simp_all [getField_setField_ne, getField_setField_self, clusterNeedsFill, nsIsNullish,
          statusIsNone, truthyStr, truthyWin]
    · intro h1 h2
      split_ifs <;>
        simp_all [getField_setField_ne, getField_setField_self, clusterNeedsFill, nsIsNullish,
          statusIsNone, truthyStr, truthyWin]
    · intro h1
      split_ifs <;>
        simp_all [getField_setField_ne, getField_setField_self, clusterNeedsFill, nsIsNullish,
          statusIsNone, truthyStr, truthyWin]
    · intro h1
      split_ifs <;>
        simp_all [getField_setField_ne, getField_setField_self, clusterNeedsFill, nsIsNullish,
          statusIsNone, truthyStr, truthyWin]
    · intro v hv hvn
      cases v
      all_goals first
        | exact absurd rfl hvn
        | (split_ifs <;>
            simp_all [getField_setField_ne, getField_setField_self, clusterNeedsFill,
              nsIsNullish, statusIsNone, truthyStr, truthyWin])
    · intro h1 h2
      split_ifs <;>
        simp_all [getField_setField_ne, getField_setField_self, clusterNeedsFill, nsIsNullish,
          statusIsNone, truthyStr, truthyWin]


/-- Witness for C4 at concrete inputs: the hints derived from the
question `"s1 클러스터 최근 30분"` applied to a call whose args carry an
explicit blank-free cluster and an explicit window. -/
theorem hint_backfill_fill_or_preserve_witness :
    ∃ fs', getField
        ((applyHints (hintsFromQuestion "s1 클러스터 최근 30분")
          [("action", JValue.jstr "tool_call"), ("tool", JValue.jstr "current_error_services"),
            ("args", JValue.jobj [("cluster", JValue.jstr "c9"),
              ("window_minutes", JValue.jint 60)])]).toOption.getD []) "args" =
      some (JValue.jobj fs') ∧
      (∀ s : String,
        getField [("cluster", JValue.jstr "c9"), ("window_minutes", JValue.jint 60)] "cluster" =
          some (.jstr s) → pyStrip s ≠ "" → getField fs' "cluster" = some (.jstr s)) ∧
      (truthyStr (hintsFromQuestion "s1 클러스터 최근 30분").cluster = true →
        clusterNeedsFill [("cluster", JValue.jstr "c9"), ("window_minutes", JValue.jint 60)] =
          true →
        getField fs' "cluster" =
          some (.jstr ((hintsFromQuestion "s1 클러스터 최근 30분").cluster.getD ""))) ∧
      (∀ s : String,
        getField [("cluster", JValue.jstr "c9"), ("window_minutes", JValue.jint 60)]
            "namespace" = some (.jstr s) → s ≠ "" → s ≠ "null" →
        getField fs' "namespace" = some (.jstr s)) ∧
      (truthyStr (hintsFromQuestion "s1 클러스터 최근 30분").ns = true →
        nsIsNullish [("cluster", JValue.jstr "c9"), ("window_minutes", JValue.jint 60)] = true →
        getField fs' "namespace" =
          some (.jstr ((hintsFromQuestion "s1 클러스터 최근 30분").ns.getD ""))) ∧
      (truthyWin (hintsFromQuestion "s1 클러스터 최근 30분").window = true →
        getField fs' "window_minutes" =
          some (.jint ((hintsFromQuestion "s1 클러스터 최근 30분").window.getD 0))) ∧
      (truthyWin (hintsFromQuestion "s1 클러스터 최근 30분").window = false →
        getField fs' "window_minutes" =
          getField [("cluster", JValue.jstr "c9"), ("window_minutes", JValue.jint 60)]
            "window_minutes") ∧
      (∀ v : JValue,
        getField [("cluster", JValue.jstr "c9"), ("window_minutes", JValue.jint 60)] "status" =
          some v → v ≠ .jnull → getField fs' "status" = some v) ∧
      ((hintsFromQuestion "s1 클러스터 최근 30분").status ≠ "" →
        statusIsNone [("cluster", JValue.jstr "c9"), ("window_minutes", JValue.jint 60)] =
          true →
        getField fs' "status" =
          some (.jstr (hintsFromQuestion "s1 클러스터 최근 30분").status)) :=
  hint_backfill_fill_or_preserve (hintsFromQuestion "s1 클러스터 최근 30분")
    [("action", JValue.jstr "tool_call"), ("tool", JValue.jstr "current_error_services"),
      ("args", JValue.jobj [("cluster", JValue.jstr "c9"), ("window_minutes", JValue.jint 60)])]
    [("cluster", JValue.jstr "c9"), ("window_minutes", JValue.jint 60)]
    [("action", JValue.jstr "tool_call"), ("tool", JValue.jstr "current_error_services"),
      ("args", JValue.jobj [("cluster", JValue.jstr "c9"), ("window_minutes", JValue.jint 30),
        ("status", JValue.jstr "error")])]
    rfl rfl


/-- Counterexample to C4 as stated: the question yields a 30-minute
window hint, the model's proposed call explicitly supplies
`window_minutes: 60`, and the backfill replaces the explicit valid
value by the hint. -/
theorem window_hint_overwrites_explicit_value :
    parse_window_minutes_ko "s1 클러스터 최근 30분" = some 30 ∧
    getField [("cluster", JValue.jstr "c9"), ("window_minutes", JValue.jint 60)]
      "window_minutes" = some (.jint 60) ∧
    applyHints (hintsFromQuestion "s1 클러스터 최근 30분")
      [("action", JValue.jstr "tool_call"), ("tool", JValue.jstr "current_error_services"),
        ("args", JValue.jobj [("cluster", JValue.jstr "c9"), ("window_minutes", JValue.jint 60)])] =
      .ok [("action", JValue.jstr "tool_call"), ("tool", JValue.jstr "current_error_services"),
        ("args", JValue.jobj [("cluster", JValue.jstr "c9"), ("window_minutes", JValue.jint 30),
          ("status", JValue.jstr "error")])] ∧
    JValue.jint 30 ≠ JValue.jint 60 :=
  ⟨rfl, rfl, rfl, by simp⟩



/-- Claim C8 (amended): for a proposed `tool_call` of a whitelisted
tool whose backfilled args have no cluster value that is a string and
non-blank after stripping, validation fails with exactly
"cluster must be specified explicitly", no external tool is invoked
(no `tool_call`/`tool_result` trace entries, counter unchanged), a
corrective message describing the error is appended, and the loop
continues.  For a non-whitelisted tool the whitelist error fires
first — see the companion counterexample. -/
theorem missing_cluster_rejected_and_loop_continues (ctx : Ctx) (s : AgentState) (text : String)
    (obj obj1 fs1 : List (String × JValue)) (tname : String)
    (hext : extract_first_json_object text.data = some obj)
    (hne : obj.isEmpty = false)
    (hact : getField obj "action" = some (.jstr "tool_call"))
    (hlt : s.toolCalls < ctx.cfg.maxToolCalls)
    (hh : applyHints ctx.hints obj = .ok obj1)
    (hact1 : getField obj1 "action" = some (.jstr "tool_call"))
    (htool1 : getField obj1 "tool" = some (.jstr tname))
    (hwl : tname = "current_error_services" ∨ tname = "increasing_error_services")
    (hargs1 : getField obj1 "args" = some (.jobj fs1))
    (hcl : clusterValid fs1 = false) :
    ∃ objE : List (String × JValue),
      validate_and_normalize_call ctx.cfg obj1 =
        .error (.valueError "cluster must be specified explicitly", objE) ∧
      dispatchStep ctx s text = .cont { s with
        messages := s.messages ++
          [⟨"assistant", jdump (.jobj objE)⟩,
            ⟨"user", invalidCallMsg "cluster must be specified explicitly"⟩],
        trace := s.trace ++ [.toolCallInvalid "cluster must be specified explicitly" objE] } := by
  have hval : ∃ objE, validate_and_normalize_call ctx.cfg obj1 =
      .error (.valueError "cluster must be specified explicitly", objE) := by
    have hwl2 : whitelistedTool (getField obj1 "tool") = true := by
      rw [htool1]
      rcases hwl with rfl | rfl <;> rfl
    by_cases hfs1 : fs1 = []
    · subst hfs1
      simp only [validate_and_normalize_call, hact1, hargs1, hwl2, Option.getD_some,
        Bool.not_true, Bool.false_eq_true, if_false, pyTruthy]
      simp only [validateArgs, getField]
      exact ⟨_, rfl⟩
    · have hfs1e : fs1.isEmpty = false := by
        cases fs1 with
        | nil => exact absurd rfl hfs1
        | cons a l => rfl
      simp only [validate_and_normalize_call, hact1, hargs1, hwl2, Option.getD_some,
        Bool.not_true, Bool.false_eq_true, if_false, pyTruthy, hfs1e, Bool.not_false, if_true]
      simp only [clusterValid] at hcl
      simp only [validateArgs]
      cases hc : getField fs1 "cluster" with
      | none => exact ⟨_, rfl⟩
      | some v =>
        rw [hc] at hcl
        cases v with
        | jstr c =>
          have hblank : pyStrip c = "" := by
            simpa using hcl
          dsimp only
          rw [if_pos hblank]
          exact ⟨_, rfl⟩
        | jnull => exact ⟨_, rfl⟩
        | jbool b => exact ⟨_, rfl⟩
        | jint n => exact ⟨_, rfl⟩
        | jfloat q => exact ⟨_, rfl⟩
        | jarr items => exact ⟨_, rfl⟩
        | jobj fields => exact ⟨_, rfl⟩
  obtain ⟨objE, hvalE⟩ := hval
  refine ⟨objE, hvalE, ?_⟩
  rw [dispatchStep_toolCall_eq ctx s text obj hext hne hact,
    handleToolCall_invalid_eq ctx s obj obj1 _ objE hlt hh hvalE]


/-- Witness for C8 at concrete inputs: empty args, no cluster hint,
whitelisted tool. -/
theorem missing_cluster_rejected_witness :
    ∃ objE : List (String × JValue),
      validate_and_normalize_call ctxNoCluster.cfg
        [("action", JValue.jstr "tool_call"), ("tool", JValue.jstr "current_error_services"),
          ("args", JValue.jobj [("status", JValue.jstr "error")])] =
        .error (.valueError "cluster must be specified explicitly", objE) ∧
      dispatchStep ctxNoCluster (initAgentState "질문") textToolCallNoCluster =
        .cont { (initAgentState "질문") with
          messages := (initAgentState "질문").messages ++
            [⟨"assistant", jdump (.jobj objE)⟩,
              ⟨"user", invalidCallMsg "cluster must be specified explicitly"⟩],
          trace := (initAgentState "질문").trace ++
            [.toolCallInvalid "cluster must be specified explicitly" objE] } :=
  missing_cluster_rejected_and_loop_continues ctxNoCluster (initAgentState "질문")
    textToolCallNoCluster
    [("action", JValue.jstr "tool_call"), ("tool", JValue.jstr "current_error_services"),
      ("args", JValue.jobj [])]
    [("action", JValue.jstr "tool_call"), ("tool", JValue.jstr "current_error_services"),
      ("args", JValue.jobj [("status", JValue.jstr "error")])]
    [("status", JValue.jstr "error")] "current_error_services"
    rfl rfl rfl (by decide) rfl rfl rfl (Or.inl rfl) rfl rfl


/-- Counterexample to C8 as stated: a proposed `tool_call` whose args
lack a cluster but whose tool is not whitelisted fails with
"Tool not allowed: bogus" — the whitelist check precedes the cluster
check, so the promised cluster error is not the one raised. -/
theorem tool_whitelist_error_masks_cluster_error :
    getField [("status", JValue.jstr "error")] "cluster" = none ∧
    validate_and_normalize_call defaultConfig
      [("action", JValue.jstr "tool_call"), ("tool", JValue.jstr "bogus"),
        ("args", JValue.jobj [("status", JValue.jstr "error")])] =
      .error (.valueError "Tool not allowed: bogus",
        [("action", JValue.jstr "tool_call"), ("tool", JValue.jstr "bogus"),
          ("args", JValue.jobj [("status", JValue.jstr "error")])]) ∧
    ("Tool not allowed: bogus" : String) ≠ "cluster must be specified explicitly" :=
  ⟨rfl, rfl, by decide⟩


/-- Witness for C10 at concrete inputs: `min_delta = 5000000` clamps to
999999 and `min_ratio = 250` clamps to 100. -/
theorem min_delta_min_ratio_clamping_witness :
    (∃ d : Int, getField incrCallNormArgs "min_delta" = some (.jint d) ∧ 1 ≤ d ∧ d ≤ 999999 ∧
      (∀ n : Int, pyInt ((getField incrCallArgs "min_delta").getD (.jint 10)) = .ok n →
        999999 < n → d = 999999)) ∧
    (∃ r : Rat, getField incrCallNormArgs "min_ratio" = some (.jfloat r) ∧ 1 ≤ r ∧ r ≤ 100) :=
  min_delta_min_ratio_clamping defaultConfig incrCall incrCallNorm incrCallArgs incrCallNormArgs
    rfl rfl rfl rfl



end MCPAgent
